import Mathlib

/-! # nexus-im/nexus: token issuance and the conversation directory

A shallow embedding of

* `internal/auth/jwt.go` (`Authenticator.GenerateToken`, `Authenticator.ValidateToken`),
* `store/conversation/sql_store.go` (`GetP2PBetween`, `GetSelfP2P`, `CreateConversation`),
* `main.go` (`handleCreateConversation`, `authenticateRequest`, `handleLogin`,
  `generateSessionToken`),

followed by the properties proved about them.

Conventions of the embedding.

* A Go `string` is a Lean `String`; `[]byte(s)` is identified with `s`.
* `time.Time` is an `Int`: nanoseconds since the Unix epoch. `time.Duration` is an
  `Int` number of nanoseconds. Every call of `time.Now()` is an explicit argument.
* A Go `error` is a `GoError`; `nil` is `none` (or the `.ok` side of `Except`).
* What the database engine, the random source or the scheduler decides is an
  explicit argument of the function that depends on it.
-/

namespace Nexus

/-! ## Go error values -/

/-- Package-level error values, each created once by `errors.New` and compared by
identity: those of `internal/auth`, of `github.com/golang-jwt/jwt/v5`, of
`store/conversation`, `store/session` and `store/user`, and `other` for any error value of a
collaborator (database driver, context cancellation). -/
inductive Sentinel where
  | ErrInvalidToken
  | ErrExpiredToken
  | jwtErrTokenMalformed
  | jwtErrTokenUnverifiable
  | jwtErrTokenSignatureInvalid
  | jwtErrSignatureInvalid
  | jwtErrInvalidKeyType
  | jwtNoneSignatureTypeDisallowedError
  | jwtErrTokenInvalidClaims
  | jwtErrTokenExpired
  | jwtErrTokenNotValidYet
  | ErrConversationNotFound
  | ErrSessionNotFound
  | ErrUserNotFound
  | other (msg : String)
  deriving DecidableEq, Repr

/-- A Go error value: a sentinel itself, or an error built by `fmt.Errorf` with `%w`
verbs. For a wrapping error only the sentinels reachable through `Unwrap` are kept,
which is all that `errors.Is` and `==` can observe. -/
inductive GoError where
  | sentinel (s : Sentinel)
  | wrapped (msg : String) (chain : List Sentinel)
  deriving DecidableEq, Repr

/-- The sentinels that `errors.Is` finds in an error. -/
def GoError.targets : GoError → List Sentinel
  | .sentinel s => [s]
  | .wrapped _ chain => chain

/-- Go `errors.Is(err, target)` for a sentinel target. -/
def errorsIs (err : GoError) (target : Sentinel) : Bool :=
  err.targets.contains target

/-- The jwt library helper `newError(message, err, more...)`: one error that wraps
`err` and every error of `more`. -/
def newError (message : String) (err : Sentinel) (more : List GoError) : GoError :=
  .wrapped message (err :: more.flatMap GoError.targets)

deriving instance DecidableEq for Except

/-- Go `var ErrInvalidToken = errors.New("invalid token")`. -/
def ErrInvalidToken : GoError := .sentinel .ErrInvalidToken

/-- Go `var ErrExpiredToken = errors.New("token has expired")`. -/
def ErrExpiredToken : GoError := .sentinel .ErrExpiredToken

/-! ## internal/auth/jwt.go -/

/-- The registered claims the code sets, `jwt.RegisteredClaims`. A `*NumericDate` is
`none` (nil) or whole Unix seconds. `Subject`, `Audience` and `ID` are never set by
this program and never checked by the default validator; they are left out. -/
structure RegisteredClaims where
  Issuer : String
  ExpiresAt : Option Int
  NotBefore : Option Int
  IssuedAt : Option Int
  deriving DecidableEq, Repr

/-- Go `type Claims struct`: `UserID` is serialised under `sub`. -/
structure Claims where
  UserID : String
  Username : String
  RegisteredClaims : RegisteredClaims
  deriving DecidableEq, Repr

/-- Go `type Authenticator struct`. -/
structure Authenticator where
  secretKey : String
  issuer : String
  validity : Int
  deriving DecidableEq, Repr

/-- Go `NewAuthenticator`. -/
def NewAuthenticator (secretKey : String) (issuer : String) (validity : Int) : Authenticator :=
  { secretKey := secretKey, issuer := issuer, validity := validity }

/-- Library `jwt.NewNumericDate(t)`: `t.Truncate(time.Second)`, kept as Unix seconds. -/
def NewNumericDate (t : Int) : Int := t / 1000000000

/-- The instant of a numeric date, in nanoseconds. -/
def NumericDate.Time (d : Int) : Int := d * 1000000000

/-- The signing methods the jwt library registers. Only the HMAC ones are values of
`*jwt.SigningMethodHMAC`. -/
inductive SigningMethod where
  | HMAC (alg : String)
  | RSA (alg : String)
  | RSAPSS (alg : String)
  | ECDSA (alg : String)
  | Ed25519
  | none
  deriving DecidableEq, Repr

/-- Library `jwt.GetSigningMethod(alg)`: the registered method of that name, if any. -/
def GetSigningMethod (alg : String) : Option SigningMethod :=
  if alg = "HS256" ∨ alg = "HS384" ∨ alg = "HS512" then some (.HMAC alg)
  else if alg = "RS256" ∨ alg = "RS384" ∨ alg = "RS512" then some (.RSA alg)
  else if alg = "PS256" ∨ alg = "PS384" ∨ alg = "PS512" then some (.RSAPSS alg)
  else if alg = "ES256" ∨ alg = "ES384" ∨ alg = "ES512" then some (.ECDSA alg)
  else if alg = "EdDSA" then some .Ed25519
  else if alg = "none" then some .none
  else Option.none

/-- Go type assertion `token.Method.(*jwt.SigningMethodHMAC)`. -/
def SigningMethod.isHMAC : SigningMethod → Bool
  | .HMAC _ => true
  | _ => false

/-- Library `jwt.SigningMethodHS256`. -/
def SigningMethodHS256 : SigningMethod := .HMAC "HS256"

/-- The name a method writes into the header, `Alg()`. -/
def SigningMethod.Alg : SigningMethod → String
  | .HMAC alg => alg
  | .RSA alg => alg
  | .RSAPSS alg => alg
  | .ECDSA alg => alg
  | .Ed25519 => "EdDSA"
  | .none => "none"

/-- The text a signature covers: the first two segments of the compact token, the
encoded header and the encoded claims. A segment is identified with what it decodes
to. -/
structure SigningInput where
  alg : String
  claims : Claims
  deriving DecidableEq, Repr

/-- The keyed hash of `crypto/hmac`, a collaborator: hash name, key and signing input
to tag. Every definition and theorem below takes it as an argument. -/
abbrev HMACFn := String → String → SigningInput → String

/-- A compact token string as the parser sees it: `malformed` when it does not split
into three segments or the header or claims segment does not decode; otherwise the
decoded header field `alg` (`none` when absent), the decoded claims and the decoded
signature bytes. Tokens whose signature segment is not base64 are not modelled. -/
inductive TokenString where
  | malformed
  | segments (alg : Option String) (claims : Claims) (sig : String)
  deriving DecidableEq, Repr

/-- Library `jwt.Token`, the fields this program reads. -/
structure Token where
  Method : SigningMethod
  Claims : Claims
  Signature : String
  Valid : Bool
  deriving DecidableEq, Repr

/-- Library `jwt.NewWithClaims(method, claims)`. -/
def NewWithClaims (method : SigningMethod) (claims : Claims) : Token :=
  { Method := method, Claims := claims, Signature := "", Valid := false }

/-- Library `SigningMethod.Sign(signingString, key)` for a byte-slice key. Only an
HMAC method accepts such a key. -/
def SigningMethod.Sign (hmac : HMACFn) (m : SigningMethod) (text : SigningInput) (key : String) :
    Except GoError String :=
  match m with
  | .HMAC alg => .ok (hmac alg key text)
  | .none => .error (.sentinel .jwtNoneSignatureTypeDisallowedError)
  | _ => .error (.sentinel .jwtErrInvalidKeyType)

/-- Library `SigningMethod.Verify(signingString, sig, key)` for a byte-slice key: an
HMAC method recomputes the tag and compares (`hmac.Equal`); every other method
rejects the key type. `none` is success. -/
def SigningMethod.Verify (hmac : HMACFn) (m : SigningMethod) (text : SigningInput) (sig : String)
    (key : String) : Option GoError :=
  match m with
  | .HMAC alg => if sig = hmac alg key text then Option.none else some (.sentinel .jwtErrSignatureInvalid)
  | .none => some (.sentinel .jwtNoneSignatureTypeDisallowedError)
  | _ => some (.sentinel .jwtErrInvalidKeyType)

/-- Library `token.SignedString(key)`: header and claims are serialised, signed with
the token's method, and the three segments joined. -/
def Token.SignedString (hmac : HMACFn) (t : Token) (key : String) : Except GoError TokenString :=
  match t.Method.Sign hmac { alg := t.Method.Alg, claims := t.Claims } key with
  | .error e => .error e
  | .ok sig => .ok (.segments (some t.Method.Alg) t.Claims sig)

/-- The three readings of `time.Now()` that `GenerateToken` takes, in evaluation
order: for `ExpiresAt`, for `IssuedAt`, for `NotBefore`. -/
structure IssueClock where
  nowExp : Int
  nowIat : Int
  nowNbf : Int
  deriving DecidableEq, Repr

/-- The local `claims` of `GenerateToken`: the struct literal it builds and signs. -/
def Authenticator.issuedClaims (a : Authenticator) (clk : IssueClock) (userID username : String) :
    Claims :=
  { UserID := userID
    Username := username
    RegisteredClaims :=
      { ExpiresAt := some (NewNumericDate (clk.nowExp + a.validity))
        IssuedAt := some (NewNumericDate clk.nowIat)
        NotBefore := some (NewNumericDate clk.nowNbf)
        Issuer := a.issuer } }

/-- Go `func (a *Authenticator) GenerateToken(userID, username string) (string, error)`. -/
def Authenticator.GenerateToken (hmac : HMACFn) (a : Authenticator) (clk : IssueClock)
    (userID username : String) : Except GoError TokenString :=
  let claims := a.issuedClaims clk userID username
  let token := NewWithClaims SigningMethodHS256 claims
  token.SignedString hmac a.secretKey

/-- Library `Validator.verifyExpiresAt` with no leeway and `exp` not required:
`now.Before(exp)` must hold when the claim is present. -/
def verifyExpiresAt (c : Claims) (now : Int) : Option GoError :=
  match c.RegisteredClaims.ExpiresAt with
  | Option.none => Option.none
  | some exp => if now < NumericDate.Time exp then Option.none else some (.sentinel .jwtErrTokenExpired)

/-- Library `Validator.verifyNotBefore` with no leeway: `!now.Before(nbf)` must hold
when the claim is present. -/
def verifyNotBefore (c : Claims) (now : Int) : Option GoError :=
  match c.RegisteredClaims.NotBefore with
  | Option.none => Option.none
  | some nbf => if ¬ (now < NumericDate.Time nbf) then Option.none else some (.sentinel .jwtErrTokenNotValidYet)

/-- Library `Validator.Validate(claims)` of the default validator (no leeway, no
issued-at check, no expected audience, issuer or subject): the failed checks, joined. -/
def Validate (c : Claims) (now : Int) : Option GoError :=
  let errs := (verifyExpiresAt c now).toList ++ (verifyNotBefore c now).toList
  if errs.isEmpty then Option.none else some (.wrapped "" (errs.flatMap GoError.targets))

/-- Library `jwt.ParseWithClaims(tokenString, claims, keyFunc)` with the default
parser, in the order the library works: split and decode, look the method up by the
header `alg`, ask `keyFunc` for the key, verify the signature, validate the claims.
`now` is the validator reading of the clock. The token is returned only with a nil
error, the one case in which the caller reads it. -/
def ParseWithClaims (hmac : HMACFn) (now : Int) (tokenString : TokenString)
    (keyFunc : Token → Except GoError String) : Except GoError Token :=
  match tokenString with
  | .malformed => .error (newError "token is malformed" .jwtErrTokenMalformed [])
  | .segments Option.none _ _ =>
    .error (newError "signing method (alg) is unspecified" .jwtErrTokenUnverifiable [])
  | .segments (some alg) claims sig =>
    match GetSigningMethod alg with
    | Option.none => .error (newError "signing method (alg) is unavailable" .jwtErrTokenUnverifiable [])
    | some method =>
      let token : Token := { Method := method, Claims := claims, Signature := sig, Valid := false }
      match keyFunc token with
      | .error e => .error (newError "error while executing keyfunc" .jwtErrTokenUnverifiable [e])
      | .ok key =>
        match method.Verify hmac { alg := alg, claims := claims } sig key with
        | some e => .error (newError "" .jwtErrTokenSignatureInvalid [e])
        | Option.none =>
          match Validate claims now with
          | some e => .error (newError "" .jwtErrTokenInvalidClaims [e])
          | Option.none => .ok { token with Valid := true }

/-- The key function `ValidateToken` hands to the parser: the secret for an HMAC
method, `ErrInvalidToken` for any other. -/
def Authenticator.keyFunc (a : Authenticator) (token : Token) : Except GoError String :=
  if ¬ token.Method.isHMAC then .error ErrInvalidToken
  else .ok a.secretKey

/-- Go `func (a *Authenticator) ValidateToken(tokenString string) (*Claims, error)`.
`now` is the clock at validation. -/
def Authenticator.ValidateToken (hmac : HMACFn) (a : Authenticator) (now : Int)
    (tokenString : TokenString) : Except GoError Claims :=
  match ParseWithClaims hmac now tokenString a.keyFunc with
  | .error err =>
    if errorsIs err .jwtErrTokenExpired then .error ErrExpiredToken
    else .error err
  | .ok token =>
    if token.Valid then .ok token.Claims
    else .error ErrInvalidToken

/-- A stand-in keyed hash for concrete runs: the tag spells out hash, key and the
signed user id and username, so tags under different keys differ. -/
def demoHMAC : HMACFn := fun alg key text =>
  alg ++ ":" ++ key ++ ":" ++ text.alg ++ ":" ++ text.claims.UserID ++ ":" ++ text.claims.Username

/-- The key preparation of `crypto/hmac` (RFC 2104) for a key of at most one block
(64 bytes for SHA-256): the key is padded with zero bytes to the block size. Keys are
taken to be ASCII, one byte per character. -/
def padKey (key : String) : String :=
  String.mk (key.data ++ List.replicate (64 - key.data.length) (Char.ofNat 0))

/-- A stand-in keyed hash that prepares its key as HMAC does: the tag is computed from
the padded key. -/
def paddedHMAC : HMACFn := fun alg key text => demoHMAC alg (padKey key) text

/-! ## store/conversation -/

/-- Go `const TypeP2P Type = "p2p"`. -/
def TypeP2P : String := "p2p"

/-- Go `const TypeGroup Type = "group"`. -/
def TypeGroup : String := "group"

/-- Go `type Conversation struct`, which is also the shape of a row of the table
`conversations(id, type, created_by, created_at)`. The field `Type` is written
`Type_`. -/
structure Conversation where
  ID : String
  Type_ : String
  CreatedBy : String
  CreatedAt : Int
  deriving DecidableEq, Repr

/-- A row of the table `conversation_members(conversation_id, user_id, joined_at)`. -/
structure MemberRow where
  conversation_id : String
  user_id : String
  joined_at : Int
  deriving DecidableEq, Repr

/-- The committed content of the two tables, which is what every reader sees. -/
structure DB where
  conversations : List Conversation
  conversation_members : List MemberRow
  deriving DecidableEq, Repr

/-- Go `var ErrConversationNotFound = errors.New("conversation not found")`. -/
def ErrConversationNotFound : GoError := .sentinel .ErrConversationNotFound

/-- What the database engine decides about one query: whether it fails (driver error,
lost connection, cancelled context), and which row of the result `LIMIT 1` keeps, the
query having no `ORDER BY`. -/
structure QueryEnv where
  err : Option GoError
  pick : Nat

/-- The row that `LIMIT 1` keeps of a result; none when the result is empty
(`sql.ErrNoRows`). -/
def limitOne {α : Type} (rows : List α) (pick : Nat) : Option α :=
  rows[pick % rows.length]?

/-- The result of the query of `GetP2PBetween`: `conversations c` joined with
`conversation_members m1` and `m2` on the conversation id, where `c.type = 'p2p'`,
`m1.user_id = $1` and `m2.user_id = $2`; one row per matching triple. -/
def p2pBetweenRows (db : DB) (userAID userBID : String) : List Conversation :=
  db.conversations.flatMap fun c =>
    db.conversation_members.flatMap fun m1 =>
      (db.conversation_members.filter fun m2 =>
        decide (m1.conversation_id = c.ID ∧ m2.conversation_id = c.ID ∧ c.Type_ = "p2p" ∧
          m1.user_id = userAID ∧ m2.user_id = userBID)).map fun _ => c

/-- Go `func (s *SQLStore) GetP2PBetween(ctx, userAID, userBID string) (*Conversation, error)`. -/
def GetP2PBetween (db : DB) (env : QueryEnv) (userAID userBID : String) :
    Except GoError Conversation :=
  match env.err with
  | some err => .error err
  | none =>
    match limitOne (p2pBetweenRows db userAID userBID) env.pick with
    | none => .error ErrConversationNotFound
    | some convo => .ok convo

/-- The join and `WHERE` of the query of `GetSelfP2P`: `conversations c` joined with
`conversation_members m` on the conversation id, where `c.type = 'p2p'` and
`m.user_id = $1`; one row per matching pair. -/
def selfP2PJoin (db : DB) (userID : String) : List Conversation :=
  db.conversations.flatMap fun c =>
    (db.conversation_members.filter fun m =>
      decide (m.conversation_id = c.ID ∧ c.Type_ = "p2p" ∧ m.user_id = userID)).map fun _ => c

/-- The result of the query of `GetSelfP2P`: the joined rows grouped by `c.id`, keeping
the groups with `COUNT(*) = 1`. A group of one row is that row. -/
def selfP2PRows (db : DB) (userID : String) : List Conversation :=
  (selfP2PJoin db userID).filter fun c =>
    decide (((selfP2PJoin db userID).filter fun c2 => decide (c2.ID = c.ID)).length = 1)

/-- Go `func (s *SQLStore) GetSelfP2P(ctx, userID string) (*Conversation, error)`. -/
def GetSelfP2P (db : DB) (env : QueryEnv) (userID : String) : Except GoError Conversation :=
  match env.err with
  | some err => .error err
  | none =>
    match limitOne (selfP2PRows db userID) env.pick with
    | none => .error ErrConversationNotFound
    | some convo => .ok convo

/-- The zero `time.Time` (January 1 of year 1, UTC) in Unix nanoseconds. -/
def zeroTime : Int := -62135596800000000000

/-- Go `t.IsZero()`. -/
def IsZero (t : Int) : Bool := decide (t = zeroTime)

/-- What the engine and the clock decide during one `CreateConversation`: the failure,
if any, of `BeginTx`, of the conversation insert, of the k-th membership insert
(counted from 0), of `Commit` and of `Rollback`; the id the engine generates for the
inserted conversation row (`RETURNING id`); the readings of `time.Now()`. -/
structure TxEnv where
  beginErr : Option GoError
  insertErr : Option GoError
  memberErr : Nat → Option GoError
  commitErr : Option GoError
  rollbackErr : Option GoError
  newID : String
  nowCreated : Int
  nowJoined : Int

/-- How a transaction ended. -/
inductive TxState where
  | active
  | committed
  | rolledBack
  deriving DecidableEq, Repr

/-- A transaction handle `*sql.Tx`: the rows written inside it, which no reader sees
until it commits, and its state. -/
structure Tx where
  conversations : List Conversation
  conversation_members : List MemberRow
  state : TxState
  deriving DecidableEq, Repr

/-- Successful `tx.Commit()`: the rows of the transaction become part of the tables, all
at once. -/
def DB.commit (db : DB) (tx : Tx) : DB :=
  { conversations := db.conversations ++ tx.conversations
    conversation_members := db.conversation_members ++ tx.conversation_members }

/-- The deferred function of `CreateConversation`: when `err` is not nil the
transaction is rolled back; the error of `Rollback` itself is discarded. An active
transaction is closed without its rows; a finished one stays as it is. -/
def deferredRollback (err : Option GoError) (tx : Tx) : Tx :=
  match err with
  | none => tx
  | some _ => { tx with state := .rolledBack }

/-- The loop `for _, memberID := range memberIDs` of `CreateConversation`, from the
k-th insert on: each insert adds one row to the transaction, and the first failing
insert ends the loop with its error. -/
def insertMembers (env : TxEnv) (convoID : String) (joinedAt : Int) :
    List String → Nat → Tx → Tx × Option GoError
  | [], _, tx => (tx, none)
  | memberID :: rest, k, tx =>
    match env.memberErr k with
    | some err => (tx, some err)
    | none =>
      insertMembers env convoID joinedAt rest (k + 1)
        { tx with conversation_members := tx.conversation_members ++
            [{ conversation_id := convoID, user_id := memberID, joined_at := joinedAt }] }

/-- What `CreateConversation` leaves behind: the committed tables, the `convo` struct
behind the pointer argument, the transaction handle (none when `BeginTx` failed), and
the error returned. -/
structure CreateResult where
  db : DB
  convo : Conversation
  tx : Option Tx
  err : Option GoError

/-- Go `func (s *SQLStore) CreateConversation(ctx, convo *Conversation, memberIDs []string) error`. -/
def CreateConversation (db : DB) (env : TxEnv) (convo : Conversation) (memberIDs : List String) :
    CreateResult :=
  match env.beginErr with
  | some err => { db := db, convo := convo, tx := none, err := some err }
  | none =>
    let tx : Tx := { conversations := [], conversation_members := [], state := .active }
    let convo := if IsZero convo.CreatedAt then { convo with CreatedAt := env.nowCreated } else convo
    match env.insertErr with
    | some err => { db := db, convo := convo, tx := some (deferredRollback (some err) tx), err := some err }
    | none =>
      let convo := { convo with ID := env.newID }
      let tx := { tx with conversations := tx.conversations ++ [convo] }
      match insertMembers env convo.ID env.nowJoined memberIDs 0 tx with
      | (tx, some err) =>
        { db := db, convo := convo, tx := some (deferredRollback (some err) tx), err := some err }
      | (tx, none) =>
        match env.commitErr with
        | some err =>
          { db := db, convo := convo, tx := some (deferredRollback (some err) tx), err := some err }
        | none =>
          { db := db.commit tx, convo := convo,
            tx := some (deferredRollback none { tx with state := .committed }), err := none }

/-! ## main.go -/

/-- The fields of `session.Session` that `main.go` reads and writes. -/
structure Session where
  UserID : String
  Token : String
  CreatedAt : Int
  ExpiresAt : Int
  deriving DecidableEq, Repr

/-- Go `session.ErrSessionNotFound`. -/
def ErrSessionNotFound : GoError := .sentinel .ErrSessionNotFound

/-- The decoded JSON body of a request to `/api/conversations`. -/
structure CreateReq where
  Type_ : String
  UserID : String
  MemberIDs : List String
  deriving DecidableEq, Repr

/-- An inbound `*http.Request`, the parts the handler reads: the method, the values of
the headers `X-Session-Token` and `Authorization` (empty when absent), and the body
as JSON decoding gives it (none when decoding fails). -/
structure Request where
  Method : String
  XSessionToken : String
  Authorization : String
  Body : Option CreateReq
  deriving DecidableEq, Repr

/-- Go `unicode.IsSpace`: the white space code points. -/
def isSpace (c : Char) : Bool :=
  decide (c.toNat ∈ [9, 10, 11, 12, 13, 32, 133, 160, 5760, 8232, 8233, 8239, 8287, 12288]) ||
    decide (8192 ≤ c.toNat ∧ c.toNat ≤ 8202)

/-- Go `strings.TrimSpace`: leading and trailing white space removed. -/
def TrimSpace (s : String) : String :=
  String.mk ((s.data.dropWhile isSpace).reverse.dropWhile isSpace).reverse

/-- Go `strings.HasPrefix(s, p)`. -/
def HasPrefix (s p : String) : Bool := p.data.isPrefixOf s.data

/-- Go `strings.TrimPrefix(s, p)`. -/
def TrimPrefix (s p : String) : String :=
  if HasPrefix s p then String.mk (s.data.drop p.data.length) else s

/-- Go `func authenticateRequest(r *http.Request) (string, error)`; `getByToken` is
`sessionStore.GetByToken`. -/
def authenticateRequest (getByToken : String → Except GoError Session) (r : Request) :
    Except GoError String :=
  let token := TrimSpace r.XSessionToken
  let token :=
    if token = "" then
      if HasPrefix r.Authorization "Bearer " then TrimSpace (TrimPrefix r.Authorization "Bearer ")
      else token
    else token
  if token = "" then .error ErrSessionNotFound
  else
    match getByToken token with
    | .error err => .error err
    | .ok sess => .ok sess.UserID

/-- The body of a response: the text of `http.Error` (the message and a newline), or the
JSON object with the keys `conversation_id` and `created`. -/
inductive Body where
  | text (msg : String)
  | json (conversation_id : String) (created : Bool)
  deriving DecidableEq, Repr

/-- What the handler writes to the `http.ResponseWriter`. -/
structure Response where
  status : Nat
  contentType : String
  body : Body
  deriving DecidableEq, Repr

/-- How the handling of a request ends: a response is written and the server goes on,
or `log.Fatal` ends the process (`os.Exit(1)`) before anything is written. -/
inductive Outcome where
  | responded (r : Response)
  | exited (code : Nat)
  deriving DecidableEq, Repr

/-- Go `http.Error(w, msg, code)`. -/
def httpError (msg : String) (code : Nat) : Outcome :=
  .responded { status := code, contentType := "text/plain; charset=utf-8", body := .text (msg ++ "\n") }

/-- The JSON answer of the handler; `code` is 200 when `WriteHeader` is not called. -/
def jsonResponse (code : Nat) (conversation_id : String) (created : Bool) : Outcome :=
  .responded { status := code, contentType := "application/json", body := .json conversation_id created }

/-- The order in which `range` visits the keys of a Go map: some rearrangement of them,
chosen by the runtime. -/
structure RangeOrder where
  visit : List String → List String
  perm : ∀ keys, (visit keys).Perm keys

/-- Go `m[k] = struct{}{}` on a `map[string]struct{}`, the map being the list of its
keys: an assignment to a key already present changes nothing. -/
def mapSet (keys : List String) (k : String) : List String :=
  if k ∈ keys then keys else keys ++ [k]

/-- The map `memberSet` of the group branch after its first loop: it starts as
the single key `userID` and gets every non-empty id of `member_ids`. -/
def memberSet (userID : String) (memberIDs : List String) : List String :=
  memberIDs.foldl (fun set id => if id = "" then set else mapSet set id) [userID]

/-- The slice `members` of the group branch: the keys of `memberSet` in the order
`range` visits them. -/
def groupMembers (order : RangeOrder) (userID : String) (memberIDs : List String) : List String :=
  order.visit (memberSet userID memberIDs)

/-- All that the environment decides during one run of `handleCreateConversation`. -/
structure HandlerEnv where
  getByToken : String → Except GoError Session
  lookup : QueryEnv
  create : TxEnv
  now : Int
  order : RangeOrder

/-- The lookup of the p2p branch: `GetSelfP2P` when the target is the requester,
`GetP2PBetween` otherwise. -/
def p2pLookup (db : DB) (env : QueryEnv) (userID target : String) : Except GoError Conversation :=
  if target = userID then GetSelfP2P db env userID
  else GetP2PBetween db env userID target

/-- The slice `members` of the p2p branch. -/
def p2pMembers (userID target : String) : List String :=
  [userID] ++ (if target ≠ userID then [target] else [])

/-- The creation of the p2p branch, run after a lookup that found nothing. A failed
`CreateConversation` reaches `log.Fatal`, which ends the process; the `http.Error`
written after it is never executed. -/
def p2pCreate (db : DB) (env : HandlerEnv) (userID target : String) : DB × Outcome :=
  let convo : Conversation := { ID := "", Type_ := TypeP2P, CreatedBy := userID, CreatedAt := env.now }
  let members := p2pMembers userID target
  let r := CreateConversation db env.create convo members
  match r.err with
  | some _ => (r.db, .exited 1)
  | none => (r.db, jsonResponse 201 r.convo.ID true)

/-- The p2p branch of `handleCreateConversation` for a non-empty `user_id`. -/
def p2pBranch (db : DB) (env : HandlerEnv) (userID target : String) : DB × Outcome :=
  match p2pLookup db env.lookup userID target with
  | .ok existing => (db, jsonResponse 200 existing.ID false)
  | .error err =>
    if err ≠ ErrConversationNotFound then (db, httpError "Failed to look up conversation" 500)
    else p2pCreate db env userID target

/-- The group branch of `handleCreateConversation` for a non-empty `member_ids`. -/
def groupBranch (db : DB) (env : HandlerEnv) (userID : String) (memberIDs : List String) :
    DB × Outcome :=
  let members := groupMembers env.order userID memberIDs
  let convo : Conversation := { ID := "", Type_ := TypeGroup, CreatedBy := userID, CreatedAt := env.now }
  let r := CreateConversation db env.create convo members
  match r.err with
  | some _ => (r.db, httpError "Failed to create conversation" 500)
  | none => (r.db, jsonResponse 201 r.convo.ID true)

/-- Go `func handleCreateConversation(w http.ResponseWriter, r *http.Request)`: the
committed tables after the request, and how the request ended. -/
def handleCreateConversation (db : DB) (env : HandlerEnv) (r : Request) : DB × Outcome :=
  if r.Method ≠ "POST" then (db, httpError "Method not allowed" 405)
  else
    match authenticateRequest env.getByToken r with
    | .error _ => (db, httpError "Unauthorized" 401)
    | .ok userID =>
      match r.Body with
      | none => (db, httpError "Invalid request body" 400)
      | some req =>
        if req.Type_ = TypeP2P then
          if req.UserID = "" then (db, httpError "user_id is required for p2p conversations" 400)
          else p2pBranch db env userID req.UserID
        else if req.Type_ = TypeGroup then
          if req.MemberIDs.length = 0 then
            (db, httpError "member_ids is required for group conversations" 400)
          else groupBranch db env userID req.MemberIDs
        else (db, httpError "Invalid conversation type" 400)

/-! ## Two p2p requests in flight

Each store call is one atomic step against the committed tables: a lookup is a single
`SELECT`, and the rows of `CreateConversation` become visible together at its commit.
A request in the p2p branch is a task of at most two steps. -/

/-- Where a p2p request stands: before its lookup, between a lookup that found nothing
and its `CreateConversation`, or finished. -/
inductive Phase where
  | lookup
  | create
  | finished (o : Outcome)
  deriving DecidableEq, Repr

/-- A p2p request in flight: the authenticated requester, the `user_id` of its body, its
environment and its phase. -/
structure Task where
  userID : String
  target : String
  env : HandlerEnv
  phase : Phase

/-- The next store call of a task, with the code of `p2pBranch` around it. A finished
task does nothing. -/
def Task.step (db : DB) (t : Task) : DB × Task :=
  match t.phase with
  | .lookup =>
    match p2pLookup db t.env.lookup t.userID t.target with
    | .ok existing => (db, { t with phase := .finished (jsonResponse 200 existing.ID false) })
    | .error err =>
      if err ≠ ErrConversationNotFound then
        (db, { t with phase := .finished (httpError "Failed to look up conversation" 500) })
      else (db, { t with phase := .create })
  | .create =>
    let r := p2pCreate db t.env t.userID t.target
    (r.1, { t with phase := .finished r.2 })
  | .finished _ => (db, t)

/-- Two tasks run under a schedule: `true` lets the first task take its next step,
`false` the second. -/
def runSchedule : List Bool → DB → Task → Task → DB × Task × Task
  | [], db, ta, tb => (db, ta, tb)
  | true :: rest, db, ta, tb => runSchedule rest (ta.step db).1 (ta.step db).2 tb
  | false :: rest, db, ta, tb => runSchedule rest (tb.step db).1 ta (tb.step db).2

/-- The interleavings of the two store calls of one request with the two of another. -/
def interleavings : List (List Bool) :=
  [[true, true, false, false], [false, false, true, true],
   [true, false, true, false], [true, false, false, true],
   [false, true, true, false], [false, true, false, true]]

/-! ## Predicates on the tables -/

/-- The user ids of the membership rows of a conversation, one per row. -/
def memberIDsOf (db : DB) (convoID : String) : List String :=
  (db.conversation_members.filter fun m => decide (m.conversation_id = convoID)).map
    fun m => m.user_id

/-- The membership set of a conversation is exactly the set of the ids `users`. -/
def hasMemberSet (db : DB) (convoID : String) (users : List String) : Bool :=
  decide ((∀ u ∈ memberIDsOf db convoID, u ∈ users) ∧ (∀ u ∈ users, u ∈ memberIDsOf db convoID))

/-- The P2P conversations whose membership set is exactly `{a, b}`. -/
def p2pConversationsOf (db : DB) (a b : String) : List Conversation :=
  db.conversations.filter fun c => decide (c.Type_ = TypeP2P) && hasMemberSet db c.ID [a, b]

/-- The P2P membership invariant: every conversation of type P2P has exactly one
membership row, or exactly two membership rows of distinct users. -/
def P2PInvariant (db : DB) : Prop :=
  ∀ c ∈ db.conversations, c.Type_ = TypeP2P →
    (memberIDsOf db c.ID).length = 1 ∨
      ((memberIDsOf db c.ID).length = 2 ∧ (memberIDsOf db c.ID).Nodup)

/-- An id that no row of either table uses yet, as a generated id is. -/
def DB.fresh (db : DB) (id : String) : Prop :=
  (∀ c ∈ db.conversations, c.ID ≠ id) ∧ (∀ m ∈ db.conversation_members, m.conversation_id ≠ id)

/-- No statement of the transaction fails. -/
def TxEnv.succeeds (env : TxEnv) : Prop :=
  env.beginErr = none ∧ env.insertErr = none ∧ (∀ k, env.memberErr k = none) ∧ env.commitErr = none

/-- A transaction environment in which nothing fails. -/
def okTx (newID : String) (now : Int) : TxEnv :=
  { beginErr := none, insertErr := none, memberErr := fun _ => none, commitErr := none,
    rollbackErr := none, newID := newID, nowCreated := now, nowJoined := now }

/-- A session store that holds one session per user name, the token being the name. -/
def demoSessions (token : String) : Except GoError Session :=
  .ok { UserID := token, Token := token, CreatedAt := 0, ExpiresAt := 86400000000000 }

/-- A handler environment in which no store call fails, `range` visits keys in
insertion order and the engine generates `newID`. -/
def okEnv (newID : String) (now : Int) : HandlerEnv :=
  { getByToken := demoSessions, lookup := { err := none, pick := 0 }, create := okTx newID now,
    now := now, order := { visit := fun keys => keys, perm := fun keys => List.Perm.refl keys } }

/-- A store with one two-party P2P conversation `c1` between `A` and `B`. -/
def twoPartyDB : DB :=
  { conversations := [{ ID := "c1", Type_ := "p2p", CreatedBy := "A", CreatedAt := 1 }]
    conversation_members :=
      [{ conversation_id := "c1", user_id := "A", joined_at := 1 },
       { conversation_id := "c1", user_id := "B", joined_at := 1 }] }

/-- An empty store. -/
def emptyDB : DB := { conversations := [], conversation_members := [] }

/-- A handler environment in which the conversation insert of `CreateConversation`
fails with a driver error, and nothing else fails. -/
def insertFailsEnv : HandlerEnv :=
  { okEnv "c1" 5 with
    create := { okTx "c1" 5 with insertErr := some (.sentinel (.other "pq: connection reset")) } }

/-- A handler environment in which the lookup query fails with a driver error. -/
def lookupFailsEnv : HandlerEnv :=
  { okEnv "c1" 5 with
    lookup := { err := some (.sentinel (.other "pq: connection reset")), pick := 0 } }

/-- A POST request with the session token of `user` and a p2p body for `target`. -/
def p2pRequest (user target : String) : Request :=
  { Method := "POST", XSessionToken := user, Authorization := "",
    Body := some { Type_ := "p2p", UserID := target, MemberIDs := [] } }

/-- A POST request with the session token of `user` and a group body. -/
def groupRequest (user : String) (memberIDs : List String) : Request :=
  { Method := "POST", XSessionToken := user, Authorization := "",
    Body := some { Type_ := "group", UserID := "", MemberIDs := memberIDs } }

/-- The row that a successful conversation insert of `CreateConversation` writes for
`convo`: `CreatedAt` defaulted when zero, and the id the engine generated. -/
def createdRow (env : TxEnv) (convo : Conversation) : Conversation :=
  { (if IsZero convo.CreatedAt then { convo with CreatedAt := env.nowCreated } else convo) with
    ID := env.newID }

/-- The tables with one more conversation row and one membership row per member. -/
def DB.withConversation (db : DB) (c : Conversation) (memberIDs : List String) (joinedAt : Int) :
    DB :=
  { conversations := db.conversations ++ [c]
    conversation_members := db.conversation_members ++ memberIDs.map fun u =>
      { conversation_id := c.ID, user_id := u, joined_at := joinedAt } }

/-- The request `r` is a POST that authenticates as `user` and carries a p2p body with
`user_id = target`. -/
def IsP2PRequest (env : HandlerEnv) (r : Request) (user target : String) : Prop :=
  r.Method = "POST" ∧ authenticateRequest env.getByToken r = .ok user ∧
    ∃ req, r.Body = some req ∧ req.Type_ = TypeP2P ∧ req.UserID = target

/-- A store that holds one self conversation `c1` of `alice`. -/
def selfDB : DB :=
  { conversations := [{ ID := "c1", Type_ := "p2p", CreatedBy := "alice", CreatedAt := 1 }]
    conversation_members := [{ conversation_id := "c1", user_id := "alice", joined_at := 1 }] }

/-- A p2p request of `user` for `target` that has not made a store call yet. -/
def p2pTask (env : HandlerEnv) (user target : String) : Task :=
  { userID := user, target := target, env := env, phase := .lookup }

/-- The tables, and the phases of both tasks, after two tasks that start at their
lookup ran under a schedule. -/
def raceOutcome (s : List Bool) (db : DB) (envA envB : HandlerEnv) (a b : String) :
    DB × Phase × Phase :=
  ((runSchedule s db (p2pTask envA a b) (p2pTask envB b a)).1,
   (runSchedule s db (p2pTask envA a b) (p2pTask envB b a)).2.1.phase,
   (runSchedule s db (p2pTask envA a b) (p2pTask envB b a)).2.2.phase)

/-! ## The credential of a request -/

/-- Go `func authenticateRequest(r *http.Request) (string, error)` with its calls of
`sessionStore.GetByToken` written down: the arguments of the calls made, in order,
and the result. -/
def authenticateRequestCalls (getByToken : String → Except GoError Session) (r : Request) :
    List String × Except GoError String :=
  let token := TrimSpace r.XSessionToken
  let token :=
    if token = "" then
      if HasPrefix r.Authorization "Bearer " then TrimSpace (TrimPrefix r.Authorization "Bearer ")
      else token
    else token
  if token = "" then ([], .error ErrSessionNotFound)
  else
    match getByToken token with
    | .error err => ([token], .error err)
    | .ok sess => ([token], .ok sess.UserID)

/-- White space, as the claim about trimming means it: the code points Unicode gives the
property White_Space, which are tab, line feed, vertical tab, form feed, carriage
return, space, U+0085, U+00A0, U+1680, U+2000 to U+200A, U+2028, U+2029, U+202F,
U+205F and U+3000. -/
def WhiteSpace (c : Char) : Prop :=
  c.toNat = 9 ∨ c.toNat = 10 ∨ c.toNat = 11 ∨ c.toNat = 12 ∨ c.toNat = 13 ∨ c.toNat = 32 ∨
  c.toNat = 133 ∨ c.toNat = 160 ∨ c.toNat = 5760 ∨ (8192 ≤ c.toNat ∧ c.toNat ≤ 8202) ∨
  c.toNat = 8232 ∨ c.toNat = 8233 ∨ c.toNat = 8239 ∨ c.toNat = 8287 ∨ c.toNat = 12288

/-- The string `c` is the string `h` without its leading and trailing white space: `h`
is `c` between two runs of white space, and `c` neither starts nor ends with white
space. -/
def IsTrimmed (c h : String) : Prop :=
  ∃ pre post : List Char, h.data = pre ++ c.data ++ post ∧
    (∀ ch ∈ pre, WhiteSpace ch) ∧ (∀ ch ∈ post, WhiteSpace ch) ∧
    (∀ ch, c.data.head? = some ch → ¬ WhiteSpace ch) ∧
    (∀ ch, c.data.getLast? = some ch → ¬ WhiteSpace ch)

/-- A request with the two credential headers given and nothing else of interest. -/
def headerRequest (sessionToken authorization : String) : Request :=
  { Method := "POST", XSessionToken := sessionToken, Authorization := authorization, Body := none }

/-- A session store in which every lookup fails. -/
def noSessions (_token : String) : Except GoError Session := .error ErrSessionNotFound

/-! ## Session tokens and login (main.go) -/

/-- The random source behind `crypto/rand`: an error, or the stream of values it
delivers, of which `rand.Read` takes one byte each. -/
abbrev RandSource := Except GoError (Nat → Nat)

/-- Go `rand.Read(b)` on a buffer of `n` bytes: the buffer after the call, or the error. -/
def randRead (source : RandSource) (n : Nat) : Except GoError (List Nat) :=
  match source with
  | .error err => .error err
  | .ok stream => .ok ((List.range n).map fun i => stream i % 256)

/-- Library `encoding/hex`: `const hextable = "0123456789abcdef"`. -/
def hextable : List Char := "0123456789abcdef".data

/-- Library `hex.EncodeToString(src)`: for each byte `v` the characters
`hextable[v>>4]` and `hextable[v&0x0f]`. -/
def EncodeToString (src : List Nat) : String :=
  String.mk (src.flatMap fun v =>
    [hextable.getD (v / 16) (Char.ofNat 0), hextable.getD (v % 16) (Char.ofNat 0)])

/-- Library `encoding/hex`: the value of a hexadecimal digit, of either case. -/
def fromHexChar (c : Char) : Option Nat :=
  if 48 ≤ c.toNat ∧ c.toNat ≤ 57 then some (c.toNat - 48)
  else if 97 ≤ c.toNat ∧ c.toNat ≤ 102 then some (c.toNat - 97 + 10)
  else if 65 ≤ c.toNat ∧ c.toNat ≤ 70 then some (c.toNat - 65 + 10)
  else none

/-- Library `hex.Decode` on the characters of a string: two digits give one byte
`(a << 4) | b`; a character that is no digit is an `InvalidByteError`, a single
trailing digit is `ErrLength`. -/
def decodeChars : List Char → Except GoError (List Nat)
  | [] => .ok []
  | [p] =>
    match fromHexChar p with
    | none => .error (.sentinel (.other "encoding/hex: invalid byte"))
    | some _ => .error (.sentinel (.other "encoding/hex: odd length hex string"))
  | p :: q :: rest =>
    match fromHexChar p, fromHexChar q with
    | some a, some b =>
      match decodeChars rest with
      | .ok bytes => .ok ((a * 16 + b) :: bytes)
      | .error err => .error err
    | _, _ => .error (.sentinel (.other "encoding/hex: invalid byte"))

/-- Library `hex.DecodeString(s)`. -/
def DecodeString (s : String) : Except GoError (List Nat) := decodeChars s.data

/-- Go `func generateSessionToken() (string, error)`. -/
def generateSessionToken (source : RandSource) : Except GoError String :=
  match randRead source 32 with
  | .error err => .error err
  | .ok bytes => .ok (EncodeToString bytes)

/-- Go `const sessionTTL = 24 * time.Hour`. -/
def sessionTTL : Int := 24 * 3600000000000

/-- The fields of `user.User` that `main.go` reads and writes. -/
structure User where
  ID : String
  Username : String
  PasswordHash : String
  CreatedAt : Int
  LastSeen : Int
  deriving DecidableEq, Repr

/-- Go `user.ErrUserNotFound`. -/
def ErrUserNotFound : GoError := .sentinel .ErrUserNotFound

/-- The decoded JSON body of a request to `/api/login`. -/
structure LoginReq where
  Username : String
  Password : String
  deriving DecidableEq, Repr

/-- A request to `/api/login`: the method, and the body as JSON decoding gives it. -/
structure LoginRequest where
  Method : String
  Body : Option LoginReq
  deriving DecidableEq, Repr

/-- All that the environment decides during one run of `handleLogin`: the answer of
`userStore.GetByUsername`, of `bcrypt.CompareHashAndPassword` (none is a match), the
random source, the reading of `time.Now()`, and the answer of `sessionStore.Create`. -/
structure LoginEnv where
  getByUsername : String → Except GoError User
  compareHashAndPassword : String → String → Option GoError
  random : RandSource
  now : Int
  createSession : Session → Option GoError

/-- The body of a login response: the text of `http.Error`, or the JSON object with
the keys `token` and `expires_in`. -/
inductive LoginBody where
  | text (msg : String)
  | token (token : String) (expires_in : Int)
  deriving DecidableEq, Repr

/-- What `handleLogin` writes to the `http.ResponseWriter`. -/
structure LoginResponse where
  status : Nat
  contentType : String
  body : LoginBody
  deriving DecidableEq, Repr

/-- What one run of `handleLogin` does: the response, and its calls of
`sessionStore.Create`, by argument. -/
structure LoginResult where
  response : LoginResponse
  creates : List Session
  deriving DecidableEq, Repr

/-- Go `http.Error(w, msg, code)` in `handleLogin`, no session store call made. -/
def loginError (msg : String) (code : Nat) : LoginResult :=
  { response := { status := code, contentType := "text/plain; charset=utf-8",
                  body := .text (msg ++ "\n") },
    creates := [] }

/-- Go `func handleLogin(w http.ResponseWriter, r *http.Request)`. -/
def handleLogin (env : LoginEnv) (r : LoginRequest) : LoginResult :=
  if r.Method ≠ "POST" then loginError "Method not allowed" 405
  else
    match r.Body with
    | none => loginError "Invalid request body" 400
    | some req =>
      if req.Username = "" ∨ req.Password = "" then
        loginError "Username and password are required" 400
      else
        match env.getByUsername req.Username with
        | .error err =>
          if err = ErrUserNotFound then loginError "Invalid credentials" 401
          else loginError "Internal server error" 500
        | .ok u =>
          match env.compareHashAndPassword u.PasswordHash req.Password with
          | some _ => loginError "Invalid credentials" 401
          | none =>
            match generateSessionToken env.random with
            | .error _ => loginError "Failed to create session" 500
            | .ok token =>
              let now := env.now
              let sess : Session :=
                { UserID := u.ID, Token := token, CreatedAt := now, ExpiresAt := now + sessionTTL }
              match env.createSession sess with
              | some _ => { loginError "Failed to create session" 500 with creates := [sess] }
              | none =>
                { response := { status := 200, contentType := "application/json",
                                body := .token token (sessionTTL / 1000000000) },
                  creates := [sess] }

/-- A login environment with the user `alice`, a password check that accepts `pw123`
only, the random stream 0, 1, 2, ... and a session store that accepts every session. -/
def demoLoginEnv : LoginEnv :=
  { getByUsername := fun name =>
      if name = "alice" then
        .ok { ID := "u-alice", Username := "alice", PasswordHash := "hash", CreatedAt := 0,
              LastSeen := 0 }
      else .error ErrUserNotFound
    compareHashAndPassword := fun _ password =>
      if password = "pw123" then none else some (.sentinel (.other "bcrypt: mismatch"))
    random := .ok fun i => i
    now := 1000
    createSession := fun _ => none }

/-! ## Properties -/

theorem NewNumericDate_le (t : Int) : NumericDate.Time (NewNumericDate t) ≤ t := by
  unfold NumericDate.Time NewNumericDate
  exact Int.ediv_mul_le t (by norm_num)

theorem GenerateToken_eq (hmac : HMACFn) (a : Authenticator) (clk : IssueClock) (u n : String) :
    a.GenerateToken hmac clk u n =
      .ok (.segments (some "HS256") (a.issuedClaims clk u n)
        (hmac "HS256" a.secretKey { alg := "HS256", claims := a.issuedClaims clk u n })) := by
  rfl

theorem GetSigningMethod_HS256 : GetSigningMethod "HS256" = some (.HMAC "HS256") := by
  simp [GetSigningMethod]

/-- C1. A token issued by `GenerateToken(u, n)` and validated under the same secret,
not earlier than its issuance and before its expiry, is accepted, and the claims
returned carry the user id, the username and the issuer of the issuing
configuration. -/
theorem validate_generated_token (hmac : HMACFn) (a v : Authenticator) (clk : IssueClock)
    (now : Int) (u n : String)
    (hkey : v.secretKey = a.secretKey)
    (hissued : clk.nowNbf ≤ now)
    (hlive : now < NumericDate.Time (NewNumericDate (clk.nowExp + a.validity))) :
    ∃ tok c, a.GenerateToken hmac clk u n = .ok tok ∧
      v.ValidateToken hmac now tok = .ok c ∧
      c.UserID = u ∧ c.Username = n ∧ c.RegisteredClaims.Issuer = a.issuer := by
  refine ⟨_, a.issuedClaims clk u n, GenerateToken_eq hmac a clk u n, ?_, rfl, rfl, rfl⟩
  have hnbf : ¬ now < NumericDate.Time (NewNumericDate clk.nowNbf) :=
    not_lt.mpr (le_trans (NewNumericDate_le _) hissued)
  simp [Authenticator.ValidateToken, ParseWithClaims, GetSigningMethod_HS256,
    Authenticator.keyFunc, SigningMethod.isHMAC, SigningMethod.Verify, hkey, Validate,
    verifyExpiresAt, verifyNotBefore, Authenticator.issuedClaims, hlive, hnbf]

/-- C1, at a concrete input: secret `super-secret-key`, issuer `nexus-im`, one hour of
validity, issued at second 1000 and validated one second later. -/
theorem validate_generated_token_witness :
    ∃ tok c, (NewAuthenticator "super-secret-key" "nexus-im" 3600000000000).GenerateToken demoHMAC
        { nowExp := 1000000000000, nowIat := 1000000000001, nowNbf := 1000000000002 }
        "user-123" "testuser" = .ok tok ∧
      (NewAuthenticator "super-secret-key" "nexus-im" 3600000000000).ValidateToken demoHMAC
        1001000000000 tok = .ok c ∧
      c.UserID = "user-123" ∧ c.Username = "testuser" ∧
      c.RegisteredClaims.Issuer = (NewAuthenticator "super-secret-key" "nexus-im" 3600000000000).issuer :=
  validate_generated_token demoHMAC _ _ _ 1001000000000 "user-123" "testuser" rfl
    (by decide) (by decide)

/-- C2 as stated fails. With the secrets `secret1` and `secret2` the validation fails,
but the error returned is the library error for a bad signature, passed through
unchanged: it is not `ErrInvalidToken`, and `errors.Is` does not find
`ErrInvalidToken` in it. And distinct secrets need not give distinct tags: under a
keyed hash that pads its key with zero bytes as HMAC does, a token generated with
`secret` is accepted by an authenticator built with `secret` followed by a zero
byte. -/
theorem validate_other_secret_error_not_ErrInvalidToken :
    (∃ tok e, (NewAuthenticator "secret1" "nexus" 3600000000000).GenerateToken demoHMAC
        { nowExp := 1000000000000, nowIat := 1000000000000, nowNbf := 1000000000000 }
        "u1" "user" = .ok tok ∧
      (NewAuthenticator "secret2" "nexus" 3600000000000).ValidateToken demoHMAC
        1001000000000 tok = .error e ∧
      e ≠ ErrInvalidToken ∧ errorsIs e .ErrInvalidToken = false ∧
      errorsIs e .jwtErrTokenSignatureInvalid = true) ∧
    ("secret" ≠ "secret\x00" ∧
      ∃ tok c, (NewAuthenticator "secret" "nexus" 3600000000000).GenerateToken paddedHMAC
        { nowExp := 1000000000000, nowIat := 1000000000000, nowNbf := 1000000000000 }
        "u1" "user" = .ok tok ∧
      (NewAuthenticator "secret\x00" "nexus" 3600000000000).ValidateToken paddedHMAC
        1001000000000 tok = .ok c ∧ c.UserID = "u1") := by
  refine ⟨⟨_, newError "" .jwtErrTokenSignatureInvalid [.sentinel .jwtErrSignatureInvalid],
    GenerateToken_eq _ _ _ _ _, by decide, by decide, by decide, by decide⟩,
    by decide, _,
    (NewAuthenticator "secret" "nexus" 3600000000000).issuedClaims
      { nowExp := 1000000000000, nowIat := 1000000000000, nowNbf := 1000000000000 } "u1" "user",
    GenerateToken_eq _ _ _ _ _, by decide, rfl⟩

/-- C2, amended. When the tag of the signing input under the second secret differs
from the tag under the first, `ValidateToken` with the second secret never returns
claims for a token generated with the first: it fails with the library error for a
bad signature, which is neither `ErrExpiredToken` nor `ErrInvalidToken`. -/
theorem validate_other_secret_fails (hmac : HMACFn) (a1 a2 : Authenticator) (clk : IssueClock)
    (now : Int) (u n : String)
    (htag : hmac "HS256" a1.secretKey { alg := "HS256", claims := a1.issuedClaims clk u n } ≠
      hmac "HS256" a2.secretKey { alg := "HS256", claims := a1.issuedClaims clk u n }) :
    ∃ tok e, a1.GenerateToken hmac clk u n = .ok tok ∧
      a2.ValidateToken hmac now tok = .error e ∧
      e = newError "" .jwtErrTokenSignatureInvalid [.sentinel .jwtErrSignatureInvalid] ∧
      e ≠ ErrExpiredToken ∧ errorsIs e .ErrExpiredToken = false ∧
      errorsIs e .jwtErrTokenExpired = false ∧
      e ≠ ErrInvalidToken ∧ errorsIs e .ErrInvalidToken = false := by
  refine ⟨_, _, GenerateToken_eq _ _ _ _ _, ?_, rfl, by decide, by decide, by decide,
    by decide, by decide⟩
  simp only [Authenticator.ValidateToken, ParseWithClaims, GetSigningMethod_HS256,
    Authenticator.keyFunc, SigningMethod.isHMAC, SigningMethod.Verify]
  simp [htag, newError, errorsIs, GoError.targets]

/-- C2 amended, at a concrete input: the secrets of `TestInvalidSignature`. -/
theorem validate_other_secret_fails_witness :
    ∃ tok e, (NewAuthenticator "secret1" "nexus" 3600000000000).GenerateToken demoHMAC
        { nowExp := 5, nowIat := 5, nowNbf := 5 } "u1" "user" = .ok tok ∧
      (NewAuthenticator "secret2" "nexus" 3600000000000).ValidateToken demoHMAC 7 tok = .error e ∧
      e = newError "" .jwtErrTokenSignatureInvalid [.sentinel .jwtErrSignatureInvalid] ∧
      e ≠ ErrExpiredToken ∧ errorsIs e .ErrExpiredToken = false ∧
      errorsIs e .jwtErrTokenExpired = false ∧
      e ≠ ErrInvalidToken ∧ errorsIs e .ErrInvalidToken = false :=
  validate_other_secret_fails demoHMAC (NewAuthenticator "secret1" "nexus" 3600000000000)
    (NewAuthenticator "secret2" "nexus" 3600000000000) { nowExp := 5, nowIat := 5, nowNbf := 5 }
    7 "u1" "user" (by decide)

/-- C3. With a validity window that is zero or negative, the token of
`GenerateToken(u, n)` validated by the same authenticator at any time from the
issuance on is rejected with exactly `ErrExpiredToken`, a value different from
`ErrInvalidToken`. -/
theorem validate_nonpositive_validity_expired (hmac : HMACFn) (a : Authenticator)
    (clk : IssueClock) (now : Int) (u n : String)
    (hvalidity : a.validity ≤ 0)
    (hissued : clk.nowExp ≤ now) :
    ∃ tok, a.GenerateToken hmac clk u n = .ok tok ∧
      a.ValidateToken hmac now tok = .error ErrExpiredToken ∧
      ErrExpiredToken ≠ ErrInvalidToken ∧ errorsIs ErrExpiredToken .ErrInvalidToken = false := by
  refine ⟨_, GenerateToken_eq _ _ _ _ _, ?_, by decide, by decide⟩
  have hexp : ¬ now < NumericDate.Time (NewNumericDate (clk.nowExp + a.validity)) := by
    have h1 := NewNumericDate_le (clk.nowExp + a.validity)
    omega
  simp only [Authenticator.ValidateToken, ParseWithClaims, GetSigningMethod_HS256,
    Authenticator.keyFunc, SigningMethod.isHMAC, SigningMethod.Verify, Validate,
    verifyExpiresAt, verifyNotBefore, Authenticator.issuedClaims]
  by_cases hnbf : now < NumericDate.Time (NewNumericDate clk.nowNbf) <;>
    simp [hexp, hnbf, newError, errorsIs, GoError.targets]

/-- C3, at the input of `TestExpiredToken`: a validity of minus one minute. -/
theorem validate_nonpositive_validity_expired_witness :
    ∃ tok, (NewAuthenticator "super-secret-key" "nexus" (-60000000000)).GenerateToken demoHMAC
        { nowExp := 1000000000000, nowIat := 1000000000000, nowNbf := 1000000000000 }
        "u1" "user" = .ok tok ∧
      (NewAuthenticator "super-secret-key" "nexus" (-60000000000)).ValidateToken demoHMAC
        1000000000000 tok = .error ErrExpiredToken ∧
      ErrExpiredToken ≠ ErrInvalidToken ∧ errorsIs ErrExpiredToken .ErrInvalidToken = false :=
  validate_nonpositive_validity_expired demoHMAC
    (NewAuthenticator "super-secret-key" "nexus" (-60000000000))
    { nowExp := 1000000000000, nowIat := 1000000000000, nowNbf := 1000000000000 }
    1000000000000 "u1" "user" (by decide) (by decide)

theorem GetSigningMethod_not_HMAC (alg : String)
    (halg : alg ≠ "HS256" ∧ alg ≠ "HS384" ∧ alg ≠ "HS512") (m : SigningMethod)
    (hm : GetSigningMethod alg = some m) : m.isHMAC = false := by
  obtain ⟨h1, h2, h3⟩ := halg
  unfold GetSigningMethod at hm
  simp only [h1, h2, h3, or_self, if_false] at hm
  split_ifs at hm <;> simp at hm <;> subst hm <;> rfl

/-- C4 as stated fails: a token that declares `ES256K`, an algorithm the jwt library
does not register, is rejected before the key function runs, with the library error
for an unverifiable token. That error is not `ErrInvalidToken`, and `errors.Is` does
not find `ErrInvalidToken` in it. -/
theorem validate_unregistered_alg_error_not_ErrInvalidToken :
    ∃ e, (NewAuthenticator "secret" "nexus" 3600000000000).ValidateToken demoHMAC 0
        (.segments (some "ES256K")
          { UserID := "u1", Username := "user",
            RegisteredClaims := { Issuer := "nexus", ExpiresAt := Option.none,
                                  NotBefore := Option.none, IssuedAt := Option.none } }
          "") = .error e ∧
      e ≠ ErrInvalidToken ∧ errorsIs e .ErrInvalidToken = false ∧
      errorsIs e .jwtErrTokenUnverifiable = true := by
  refine ⟨newError "signing method (alg) is unavailable" .jwtErrTokenUnverifiable [], ?_,
    by decide, by decide, by decide⟩
  rfl

/-- C4, amended. A token whose declared algorithm is none of HS256, HS384, HS512 is
never accepted, whatever its claims and signature, and never fails as expired. When
the jwt library registers the algorithm (`none`, RSA, RSA-PSS, ECDSA, EdDSA) the
error wraps `ErrInvalidToken`, so `errors.Is` finds it; when the library does not
know the algorithm the error is the library error for an unverifiable token, passed
through. The key function never returns the secret for such a token. -/
theorem validate_non_hmac_alg_fails (hmac : HMACFn) (a : Authenticator) (now : Int)
    (alg : String) (claims : Claims) (sig : String)
    (halg : alg ≠ "HS256" ∧ alg ≠ "HS384" ∧ alg ≠ "HS512") :
    (∃ e, a.ValidateToken hmac now (.segments (some alg) claims sig) = .error e ∧
      e ≠ ErrExpiredToken ∧ errorsIs e .ErrExpiredToken = false ∧
      (GetSigningMethod alg ≠ Option.none →
        e = newError "error while executing keyfunc" .jwtErrTokenUnverifiable [ErrInvalidToken] ∧
        errorsIs e .ErrInvalidToken = true) ∧
      (GetSigningMethod alg = Option.none →
        e = newError "signing method (alg) is unavailable" .jwtErrTokenUnverifiable [] ∧
        errorsIs e .ErrInvalidToken = false)) ∧
    (∀ m, GetSigningMethod alg = some m →
      a.keyFunc { Method := m, Claims := claims, Signature := sig, Valid := false } =
        .error ErrInvalidToken) := by
  constructor
  · cases hm : GetSigningMethod alg with
    | none =>
      refine ⟨newError "signing method (alg) is unavailable" .jwtErrTokenUnverifiable [], ?_,
        by decide, by decide, fun h => absurd rfl h, fun _ => ⟨rfl, by decide⟩⟩
      simp [Authenticator.ValidateToken, ParseWithClaims, hm, newError, errorsIs,
        GoError.targets]
    | some m =>
      have hnot := GetSigningMethod_not_HMAC alg halg m hm
      refine ⟨newError "error while executing keyfunc" .jwtErrTokenUnverifiable [ErrInvalidToken],
        ?_, by decide, by decide, fun _ => ⟨rfl, by decide⟩, fun h => by simp at h⟩
      simp [Authenticator.ValidateToken, ParseWithClaims, hm, Authenticator.keyFunc, hnot,
        newError, errorsIs, GoError.targets, ErrInvalidToken]
  · intro m hm
    simp [Authenticator.keyFunc, GetSigningMethod_not_HMAC alg halg m hm]

/-- C4 amended, at a concrete input: an unsigned token that declares `none`. -/
theorem validate_non_hmac_alg_fails_witness :
    (∃ e, (NewAuthenticator "secret" "nexus" 3600000000000).ValidateToken demoHMAC 0
        (.segments (some "none")
          { UserID := "admin", Username := "root",
            RegisteredClaims := { Issuer := "nexus", ExpiresAt := Option.none,
                                  NotBefore := Option.none, IssuedAt := Option.none } }
          "") = .error e ∧
      e ≠ ErrExpiredToken ∧ errorsIs e .ErrExpiredToken = false ∧
      (GetSigningMethod "none" ≠ Option.none →
        e = newError "error while executing keyfunc" .jwtErrTokenUnverifiable [ErrInvalidToken] ∧
        errorsIs e .ErrInvalidToken = true) ∧
      (GetSigningMethod "none" = Option.none →
        e = newError "signing method (alg) is unavailable" .jwtErrTokenUnverifiable [] ∧
        errorsIs e .ErrInvalidToken = false)) ∧
    (∀ m, GetSigningMethod "none" = some m →
      (NewAuthenticator "secret" "nexus" 3600000000000).keyFunc
        { Method := m
          Claims :=
            { UserID := "admin", Username := "root",
              RegisteredClaims := { Issuer := "nexus", ExpiresAt := Option.none,
                                    NotBefore := Option.none, IssuedAt := Option.none } }
          Signature := ""
          Valid := false } = .error ErrInvalidToken) :=
  validate_non_hmac_alg_fails demoHMAC (NewAuthenticator "secret" "nexus" 3600000000000) 0
    "none" _ "" (by decide)

/-! ### CreateConversation -/

theorem insertMembers_spec (env : TxEnv) (convoID : String) (joinedAt : Int) :
    ∀ (memberIDs : List String) (k : Nat) (tx : Tx),
      ((insertMembers env convoID joinedAt memberIDs k tx).2 = none ↔
        ∀ i, i < memberIDs.length → env.memberErr (k + i) = none) ∧
      ((insertMembers env convoID joinedAt memberIDs k tx).2 = none →
        (insertMembers env convoID joinedAt memberIDs k tx).1 =
          { tx with conversation_members := tx.conversation_members ++
              memberIDs.map fun u =>
                { conversation_id := convoID, user_id := u, joined_at := joinedAt } }) := by
  intro memberIDs
  induction memberIDs with
  | nil => intro k tx; simp [insertMembers]
  | cons m rest ih =>
    intro k tx
    cases hk : env.memberErr k with
    | some e =>
      simp only [insertMembers, hk]
      refine ⟨⟨fun h => by simp at h, fun h => ?_⟩, fun h => by simp at h⟩
      have h0 := h 0 (by simp)
      simp [hk] at h0
    | none =>
      have ih1 := ih (k + 1)
        { tx with conversation_members := tx.conversation_members ++
            [{ conversation_id := convoID, user_id := m, joined_at := joinedAt }] }
      simp only [insertMembers, hk]
      refine ⟨?_, ?_⟩
      · rw [ih1.1]
        constructor
        · intro h i hi
          cases i with
          | zero => simpa using hk
          | succ j =>
            have := h j (by simpa using hi)
            rw [show k + (j + 1) = k + 1 + j by omega]
            exact this
        · intro h j hj
          have := h (j + 1) (by simpa using hj)
          rw [show k + 1 + j = k + (j + 1) by omega]
          exact this
      · intro h
        rw [ih1.2 h]
        simp [List.append_assoc]

/-- C7. `CreateConversation` is all or nothing. When it returns an error, whichever
statement failed (begin, the conversation insert, a membership insert, commit), the
committed tables are the tables before the call and the transaction, if one was
begun, is rolled back. When it returns nil the conversation row and one membership
row per element of the member list are committed together. It returns nil exactly
when no statement fails. -/
theorem CreateConversation_atomic (db : DB) (env : TxEnv) (convo : Conversation)
    (memberIDs : List String) :
    ((CreateConversation db env convo memberIDs).err ≠ none →
      (CreateConversation db env convo memberIDs).db = db ∧
      ∀ tx, (CreateConversation db env convo memberIDs).tx = some tx → tx.state = .rolledBack) ∧
    ((CreateConversation db env convo memberIDs).err = none →
      (CreateConversation db env convo memberIDs).db.conversations =
        db.conversations ++ [(CreateConversation db env convo memberIDs).convo] ∧
      (CreateConversation db env convo memberIDs).db.conversation_members =
        db.conversation_members ++ memberIDs.map (fun u =>
          { conversation_id := (CreateConversation db env convo memberIDs).convo.ID,
            user_id := u, joined_at := env.nowJoined }) ∧
      (CreateConversation db env convo memberIDs).convo.ID = env.newID ∧
      (CreateConversation db env convo memberIDs).convo.Type_ = convo.Type_ ∧
      (CreateConversation db env convo memberIDs).convo.CreatedBy = convo.CreatedBy ∧
      ∃ tx, (CreateConversation db env convo memberIDs).tx = some tx ∧ tx.state = .committed) ∧
    ((CreateConversation db env convo memberIDs).err = none ↔
      env.beginErr = none ∧ env.insertErr = none ∧
      (∀ k, k < memberIDs.length → env.memberErr k = none) ∧ env.commitErr = none) := by
  unfold CreateConversation
  cases hb : env.beginErr with
  | some e => simp
  | none =>
    cases hi : env.insertErr with
    | some e => simp [deferredRollback]
    | none =>
      simp only []
      generalize hc : (if IsZero convo.CreatedAt = true then
        ({ convo with CreatedAt := env.nowCreated } : Conversation) else convo) = convo1
      have hty : convo1.Type_ = convo.Type_ := by subst hc; split <;> rfl
      have hby : convo1.CreatedBy = convo.CreatedBy := by subst hc; split <;> rfl
      have hspec := insertMembers_spec env env.newID env.nowJoined memberIDs 0
        { conversations := [] ++ [{ convo1 with ID := env.newID }], conversation_members := [],
          state := .active }
      rcases hm : insertMembers env env.newID env.nowJoined memberIDs 0
        { conversations := [] ++ [{ convo1 with ID := env.newID }], conversation_members := [],
          state := .active } with ⟨tx, merr⟩
      rw [hm] at hspec
      cases merr with
      | some e =>
        have hnone := hspec.1
        simp only [Nat.zero_add] at hnone
        simp [deferredRollback]
        intro h
        have := hnone.mpr h
        simp at this
      | none =>
        have hall := hspec.1.mp rfl
        have htx := hspec.2 rfl
        simp only at htx
        simp only [Nat.zero_add] at hall
        cases hcm : env.commitErr with
        | some e => simp [deferredRollback]
        | none =>
          subst htx
          simp [deferredRollback, DB.commit, hty, hby]
          exact hall

/-! ### The self lookup -/

/-- C6, the failing input. In a store whose only conversation is the two-party P2P
conversation `c1` of `A` and `B`, the result of the query of `GetSelfP2P` for `A` is
`c1`: the `WHERE` clause keeps only the membership row of `A`, so the group of `c1`
counts one row. `GetSelfP2P` returns `c1`, and a p2p request of `A` with
`user_id = A` is answered 200 with `created = false` and the id `c1`; nothing is
created. -/
theorem GetSelfP2P_returns_two_party_conversation :
    memberIDsOf twoPartyDB "c1" = ["A", "B"] ∧
    selfP2PRows twoPartyDB "A" =
      [{ ID := "c1", Type_ := "p2p", CreatedBy := "A", CreatedAt := 1 }] ∧
    GetSelfP2P twoPartyDB { err := none, pick := 0 } "A" =
      .ok { ID := "c1", Type_ := "p2p", CreatedBy := "A", CreatedAt := 1 } ∧
    handleCreateConversation twoPartyDB (okEnv "c2" 5) (p2pRequest "A" "A") =
      (twoPartyDB, jsonResponse 200 "c1" false) := by
  refine ⟨by decide, by decide, by decide, ?_⟩
  decide

/-! ### Store failures in the handler -/

/-- C10, the failing input. A p2p request of `alice` for `bob` on an empty store, in
which the conversation insert fails with a driver error: the lookup finds nothing,
`CreateConversation` returns the error, and the handler ends the process with exit
code 1 instead of answering 500. The same failure in the group branch is answered
with 500 and a fixed text, and so is a failing lookup in the p2p branch, for the
other user and for the requester alike. -/
theorem p2p_create_failure_exits_process :
    handleCreateConversation emptyDB insertFailsEnv (p2pRequest "alice" "bob") =
      (emptyDB, .exited 1) ∧
    handleCreateConversation emptyDB insertFailsEnv (groupRequest "alice" ["bob"]) =
      (emptyDB, httpError "Failed to create conversation" 500) ∧
    handleCreateConversation emptyDB lookupFailsEnv (p2pRequest "alice" "bob") =
      (emptyDB, httpError "Failed to look up conversation" 500) ∧
    handleCreateConversation emptyDB lookupFailsEnv (p2pRequest "alice" "alice") =
      (emptyDB, httpError "Failed to look up conversation" 500) := by
  refine ⟨?_, ?_, ?_, ?_⟩ <;> decide

theorem CreateConversation_convo (db : DB) (env : TxEnv) (convo : Conversation)
    (memberIDs : List String) (hb : env.beginErr = none) (hi : env.insertErr = none) :
    (CreateConversation db env convo memberIDs).convo = createdRow env convo := by
  unfold CreateConversation createdRow
  simp only [hb, hi]
  split
  · rfl
  · split <;> rfl

theorem CreateConversation_ok (db : DB) (env : TxEnv) (convo : Conversation)
    (memberIDs : List String) (hok : env.succeeds) :
    (CreateConversation db env convo memberIDs).err = none ∧
    (CreateConversation db env convo memberIDs).convo = createdRow env convo ∧
    (CreateConversation db env convo memberIDs).db =
      db.withConversation (createdRow env convo) memberIDs env.nowJoined := by
  obtain ⟨hb, hi, hm, hc⟩ := hok
  have hconvo := CreateConversation_convo db env convo memberIDs hb hi
  refine ⟨?_, hconvo, ?_⟩ <;> simp only [CreateConversation, DB.withConversation, createdRow,
    hb, hi, hc]
  all_goals
    generalize hc1 : (if IsZero convo.CreatedAt = true then
      ({ convo with CreatedAt := env.nowCreated } : Conversation) else convo) = convo1
    have hspec := insertMembers_spec env env.newID env.nowJoined memberIDs 0
      { conversations := [] ++ [{ convo1 with ID := env.newID }], conversation_members := [],
        state := .active }
    rcases hins : insertMembers env env.newID env.nowJoined memberIDs 0
      { conversations := [] ++ [{ convo1 with ID := env.newID }], conversation_members := [],
        state := .active } with ⟨tx, merr⟩
    rw [hins] at hspec
    have hnone : merr = none := hspec.1.mpr (fun i _ => hm (0 + i))
    subst hnone
    have htx := hspec.2 rfl
    simp only at htx
    subst htx
    simp [DB.commit]

theorem createdRow_ID (env : TxEnv) (convo : Conversation) : (createdRow env convo).ID = env.newID :=
  rfl

theorem createdRow_Type (env : TxEnv) (convo : Conversation) :
    (createdRow env convo).Type_ = convo.Type_ := by
  unfold createdRow
  split <;> rfl

theorem createdRow_CreatedBy (env : TxEnv) (convo : Conversation) :
    (createdRow env convo).CreatedBy = convo.CreatedBy := by
  unfold createdRow
  split <;> rfl

/-! ### The member list of a group -/

theorem mapSet_nodup (keys : List String) (k : String) (h : keys.Nodup) : (mapSet keys k).Nodup := by
  unfold mapSet
  split
  · exact h
  · rename_i hk
    exact List.Nodup.append h (List.nodup_singleton k) (by simpa using hk)

theorem mem_mapSet (keys : List String) (k x : String) : x ∈ mapSet keys k ↔ x ∈ keys ∨ x = k := by
  unfold mapSet
  split
  · rename_i hk
    constructor
    · intro h; exact Or.inl h
    · rintro (h | h)
      · exact h
      · subst h; exact hk
  · simp

theorem memberSet_fold_nodup (memberIDs : List String) :
    ∀ acc : List String, acc.Nodup →
      (memberIDs.foldl (fun set id => if id = "" then set else mapSet set id) acc).Nodup := by
  induction memberIDs with
  | nil => intro acc h; simpa using h
  | cons id rest ih =>
    intro acc h
    simp only [List.foldl_cons]
    apply ih
    split
    · exact h
    · exact mapSet_nodup acc id h

theorem mem_memberSet_fold (memberIDs : List String) (x : String) :
    ∀ acc : List String,
      x ∈ memberIDs.foldl (fun set id => if id = "" then set else mapSet set id) acc ↔
        x ∈ acc ∨ (x ∈ memberIDs ∧ x ≠ "") := by
  induction memberIDs with
  | nil => intro acc; simp
  | cons id rest ih =>
    intro acc
    simp only [List.foldl_cons]
    rw [ih]
    by_cases hid : id = ""
    · subst hid
      simp only [if_true, List.mem_cons]
      constructor
      · rintro (h | ⟨h, hx⟩)
        · exact Or.inl h
        · exact Or.inr ⟨Or.inr h, hx⟩
      · rintro (h | ⟨h | h, hx⟩)
        · exact Or.inl h
        · exact absurd h hx
        · exact Or.inr ⟨h, hx⟩
    · simp only [hid, if_false, mem_mapSet, List.mem_cons]
      constructor
      · rintro ((h | h) | ⟨h, hx⟩)
        · exact Or.inl h
        · exact Or.inr ⟨Or.inl h, by rw [h]; exact hid⟩
        · exact Or.inr ⟨Or.inr h, hx⟩
      · rintro (h | ⟨h | h, hx⟩)
        · exact Or.inl (Or.inl h)
        · exact Or.inl (Or.inr h)
        · exact Or.inr ⟨h, hx⟩

theorem handleCreateConversation_group (db : DB) (env : HandlerEnv) (r : Request) (req : CreateReq)
    (userID : String) (hmethod : r.Method = "POST")
    (hauth : authenticateRequest env.getByToken r = .ok userID) (hbody : r.Body = some req)
    (htype : req.Type_ = TypeGroup) (hne : req.MemberIDs ≠ []) :
    handleCreateConversation db env r = groupBranch db env userID req.MemberIDs := by
  have hlen : req.MemberIDs.length ≠ 0 := by
    intro h; exact hne (List.length_eq_zero.mp h)
  have hp2p : TypeGroup ≠ TypeP2P := by decide
  simp [handleCreateConversation, hmethod, hauth, hbody, hp2p, htype, hlen]

/-- C8. For a non-empty requester id and a non-empty `member_ids`, the member list that
the group branch hands to `CreateConversation` has no duplicate and no empty string,
and its elements are the requester and the non-empty ids of `member_ids`, in whatever
order `range` visits the map. For a requester `a` and `member_ids = [a, b, b, "", c]`
with `a`, `b`, `c` distinct and non-empty it is a rearrangement of `[a, b, c]`. The handler calls `CreateConversation` with that
list and a conversation of type group created by the requester, so on success the
rows committed are that conversation and one membership row per element of the
list. -/
theorem group_branch_member_list (db : DB) (env : HandlerEnv) (r : Request) (req : CreateReq)
    (userID : String) (hmethod : r.Method = "POST")
    (hauth : authenticateRequest env.getByToken r = .ok userID) (hbody : r.Body = some req)
    (htype : req.Type_ = TypeGroup) (hreq : userID ≠ "") (hne : req.MemberIDs ≠ []) :
    (groupMembers env.order userID req.MemberIDs).Nodup ∧
    "" ∉ groupMembers env.order userID req.MemberIDs ∧
    (∀ x, x ∈ groupMembers env.order userID req.MemberIDs ↔
      x = userID ∨ (x ∈ req.MemberIDs ∧ x ≠ "")) ∧
    (∀ a b c : String, a ≠ "" → b ≠ "" → c ≠ "" → a ≠ b → a ≠ c → b ≠ c →
      (groupMembers env.order a [a, b, b, "", c]).Perm [a, b, c]) ∧
    (handleCreateConversation db env r).1 =
      (CreateConversation db env.create
        { ID := "", Type_ := TypeGroup, CreatedBy := userID, CreatedAt := env.now }
        (groupMembers env.order userID req.MemberIDs)).db ∧
    (env.create.succeeds →
      (∃ c, (handleCreateConversation db env r).1.conversations = db.conversations ++ [c] ∧
        c.ID = env.create.newID ∧ c.Type_ = TypeGroup ∧ c.CreatedBy = userID) ∧
      (handleCreateConversation db env r).1.conversation_members =
        db.conversation_members ++ (groupMembers env.order userID req.MemberIDs).map (fun u =>
          { conversation_id := env.create.newID, user_id := u, joined_at := env.create.nowJoined }) ∧
      (handleCreateConversation db env r).2 = jsonResponse 201 env.create.newID true) := by
  have hperm := env.order.perm (memberSet userID req.MemberIDs)
  have hmem : ∀ x, x ∈ groupMembers env.order userID req.MemberIDs ↔
      x = userID ∨ (x ∈ req.MemberIDs ∧ x ≠ "") := by
    intro x
    unfold groupMembers
    rw [hperm.mem_iff]
    unfold memberSet
    rw [mem_memberSet_fold]
    simp
  have hrun := handleCreateConversation_group db env r req userID hmethod hauth hbody htype hne
  refine ⟨?_, ?_, hmem, ?_, ?_, ?_⟩
  · unfold groupMembers
    rw [hperm.nodup_iff]
    exact memberSet_fold_nodup _ _ (List.nodup_singleton userID)
  · intro h
    rcases (hmem "").mp h with h1 | ⟨_, h2⟩
    · exact hreq h1.symm
    · exact h2 rfl
  · intro a b c ha hb hc hab hac hbc
    have h := env.order.perm (memberSet a [a, b, b, "", c])
    have hset : memberSet a [a, b, b, "", c] = [a, b, c] := by
      simp [memberSet, mapSet, ha, hb, hc, Ne.symm hab, Ne.symm hac, Ne.symm hbc]
    unfold groupMembers
    rw [hset] at h ⊢
    exact h
  · rw [hrun]
    unfold groupBranch
    simp only []
    split <;> rfl
  · intro hok
    obtain ⟨herr, hconvo, hdb⟩ := CreateConversation_ok db env.create
      { ID := "", Type_ := TypeGroup, CreatedBy := userID, CreatedAt := env.now }
      (groupMembers env.order userID req.MemberIDs) hok
    rw [hrun]
    unfold groupBranch
    simp only [herr, hdb, hconvo, createdRow_ID]
    refine ⟨⟨_, rfl, createdRow_ID _ _, createdRow_Type _ _, createdRow_CreatedBy _ _⟩, ?_, ?_⟩
    · rfl
    · trivial

/-- C8, at the input of the spec: requester `A`, `member_ids = [A, B, B, "", C]`, a
store in which nothing fails and a runtime that visits keys in insertion order. -/
theorem group_branch_member_list_witness :
    (handleCreateConversation emptyDB (okEnv "g1" 5) (groupRequest "A" ["A", "B", "B", "", "C"])).1 =
      { conversations := [{ ID := "g1", Type_ := "group", CreatedBy := "A", CreatedAt := 5 }]
        conversation_members :=
          [{ conversation_id := "g1", user_id := "A", joined_at := 5 },
           { conversation_id := "g1", user_id := "B", joined_at := 5 },
           { conversation_id := "g1", user_id := "C", joined_at := 5 }] } ∧
    (groupMembers (okEnv "g1" 5).order "A" ["A", "B", "B", "", "C"]).Nodup := by
  have h := group_branch_member_list emptyDB (okEnv "g1" 5)
    (groupRequest "A" ["A", "B", "B", "", "C"]) { Type_ := "group", UserID := "", MemberIDs := ["A", "B", "B", "", "C"] }
    "A" rfl (by decide) rfl rfl (by decide) (by decide)
  exact ⟨by decide, h.1⟩

/-! ### Create-or-get of a P2P conversation -/

theorem mem_memberIDsOf (db : DB) (convoID u : String) :
    u ∈ memberIDsOf db convoID ↔
      ∃ m ∈ db.conversation_members, m.conversation_id = convoID ∧ m.user_id = u := by
  simp only [memberIDsOf, List.mem_map, List.mem_filter, decide_eq_true_eq]
  constructor
  · rintro ⟨m, ⟨hm, hc⟩, hu⟩
    exact ⟨m, hm, hc, hu⟩
  · rintro ⟨m, hm, hc, hu⟩
    exact ⟨m, ⟨hm, hc⟩, hu⟩

theorem mem_p2pBetweenRows (db : DB) (a b : String) (c : Conversation) :
    c ∈ p2pBetweenRows db a b ↔
      c ∈ db.conversations ∧ c.Type_ = TypeP2P ∧ a ∈ memberIDsOf db c.ID ∧
        b ∈ memberIDsOf db c.ID := by
  simp only [p2pBetweenRows, List.mem_flatMap, List.mem_map, List.mem_filter, decide_eq_true_eq,
    mem_memberIDsOf, TypeP2P]
  constructor
  · rintro ⟨c1, hc1, m1, hm1, m2, ⟨hm2, h1, h2, h3, h4, h5⟩, rfl⟩
    exact ⟨hc1, h3, ⟨m1, hm1, h1, h4⟩, ⟨m2, hm2, h2, h5⟩⟩
  · rintro ⟨hc, ht, ⟨m1, hm1, h1, h4⟩, ⟨m2, hm2, h2, h5⟩⟩
    exact ⟨c, hc, m1, hm1, m2, ⟨hm2, h1, h2, ht, h4, h5⟩, rfl⟩

theorem limitOne_nil {α : Type} (pick : Nat) : limitOne ([] : List α) pick = none := by
  simp [limitOne]

theorem limitOne_mem {α : Type} (rows : List α) (pick : Nat) (hne : rows ≠ []) :
    ∃ x ∈ rows, limitOne rows pick = some x := by
  have hpos : 0 < rows.length := List.length_pos.mpr hne
  have hlt : pick % rows.length < rows.length := Nat.mod_lt _ hpos
  refine ⟨rows[pick % rows.length], List.getElem_mem _, ?_⟩
  simp [limitOne, hlt]

theorem GetP2PBetween_notFound (db : DB) (env : QueryEnv) (a b : String) (herr : env.err = none)
    (hrows : p2pBetweenRows db a b = []) :
    GetP2PBetween db env a b = .error ErrConversationNotFound := by
  simp [GetP2PBetween, herr, hrows, limitOne_nil]

theorem GetP2PBetween_found (db : DB) (env : QueryEnv) (a b : String) (c : Conversation)
    (herr : env.err = none) (hmem : c ∈ p2pBetweenRows db a b)
    (hall : ∀ x ∈ p2pBetweenRows db a b, x = c) :
    GetP2PBetween db env a b = .ok c := by
  obtain ⟨x, hx, hpick⟩ := limitOne_mem (p2pBetweenRows db a b) env.pick
    (List.ne_nil_of_mem hmem)
  have hxc := hall x hx
  subst hxc
  simp [GetP2PBetween, herr, hpick]

theorem memberIDsOf_withConversation (db : DB) (c : Conversation) (memberIDs : List String)
    (joinedAt : Int) (convoID : String) :
    memberIDsOf (db.withConversation c memberIDs joinedAt) convoID =
      memberIDsOf db convoID ++ (if c.ID = convoID then memberIDs else []) := by
  unfold memberIDsOf DB.withConversation
  simp only [List.filter_append, List.map_append, List.append_cancel_left_eq]
  by_cases h : c.ID = convoID
  · simp only [h, if_true]
    induction memberIDs with
    | nil => rfl
    | cons m rest ih => simp [List.filter_cons, ih]
  · simp only [h, if_false]
    induction memberIDs with
    | nil => rfl
    | cons m rest ih => simp [List.filter_cons, h, ih]

theorem memberIDsOf_fresh (db : DB) (id : String) (hfresh : db.fresh id) : memberIDsOf db id = [] := by
  apply List.eq_nil_iff_forall_not_mem.mpr
  intro u hu
  obtain ⟨m, hm, hc, _⟩ := (mem_memberIDsOf db id u).mp hu
  exact hfresh.2 m hm hc

theorem memberIDsOf_withConversation_old (db : DB) (c x : Conversation) (memberIDs : List String)
    (joinedAt : Int) (hfresh : db.fresh c.ID) (hx : x ∈ db.conversations) :
    memberIDsOf (db.withConversation c memberIDs joinedAt) x.ID = memberIDsOf db x.ID := by
  have hne : c.ID ≠ x.ID := fun h => hfresh.1 x hx h.symm
  simp [memberIDsOf_withConversation, hne]

theorem memberIDsOf_withConversation_new (db : DB) (c : Conversation) (memberIDs : List String)
    (joinedAt : Int) (hfresh : db.fresh c.ID) :
    memberIDsOf (db.withConversation c memberIDs joinedAt) c.ID = memberIDs := by
  simp [memberIDsOf_withConversation, memberIDsOf_fresh db c.ID hfresh]

theorem handleCreateConversation_p2p (db : DB) (env : HandlerEnv) (r : Request) (user target : String)
    (hreq : IsP2PRequest env r user target) (htarget : target ≠ "") :
    handleCreateConversation db env r = p2pBranch db env user target := by
  obtain ⟨hmethod, hauth, req, hbody, htype, huser⟩ := hreq
  subst huser
  simp [handleCreateConversation, hmethod, hauth, hbody, htype, htarget]

theorem p2pCreate_ok (db : DB) (env : HandlerEnv) (user target : String) (hok : env.create.succeeds) :
    p2pCreate db env user target =
      (db.withConversation
          (createdRow env.create
            { ID := "", Type_ := TypeP2P, CreatedBy := user, CreatedAt := env.now })
          (p2pMembers user target) env.create.nowJoined,
        jsonResponse 201 env.create.newID true) := by
  obtain ⟨herr, hconvo, hdb⟩ := CreateConversation_ok db env.create
    { ID := "", Type_ := TypeP2P, CreatedBy := user, CreatedAt := env.now }
    (p2pMembers user target) hok
  unfold p2pCreate
  simp only [herr, hconvo, hdb, createdRow_ID]

theorem p2pMembers_distinct (user target : String) (h : user ≠ target) :
    p2pMembers user target = [user, target] := by
  simp [p2pMembers, Ne.symm h]

theorem p2pLookup_distinct (db : DB) (env : QueryEnv) (user target : String) (h : user ≠ target) :
    p2pLookup db env user target = GetP2PBetween db env user target := by
  simp [p2pLookup, Ne.symm h]

/-- Under the P2P membership invariant, a store without a P2P conversation of membership
set `{a, b}` has no P2P conversation to which both `a` and `b` belong. -/
theorem no_shared_of_invariant (db : DB) (a b : String) (hab : a ≠ b) (hinv : P2PInvariant db)
    (hnone : p2pConversationsOf db a b = []) :
    ∀ c ∈ db.conversations, c.Type_ = TypeP2P →
      ¬ (a ∈ memberIDsOf db c.ID ∧ b ∈ memberIDsOf db c.ID) := by
  intro c hc hty ⟨ha, hb⟩
  have hnot : c ∉ p2pConversationsOf db a b := by rw [hnone]; simp
  apply hnot
  simp only [p2pConversationsOf, List.mem_filter, Bool.and_eq_true, decide_eq_true_eq,
    hasMemberSet]
  refine ⟨hc, hty, ?_, ?_⟩
  · intro u hu
    rcases hinv c hc hty with h1 | ⟨h2, _⟩
    · obtain ⟨w, hw⟩ := List.length_eq_one.mp h1
      rw [hw] at ha hb
      simp only [List.mem_singleton] at ha hb
      exact absurd (ha.trans hb.symm) hab
    · obtain ⟨w1, w2, hw⟩ := List.length_eq_two.mp h2
      rw [hw] at ha hb hu
      simp only [List.mem_cons, List.mem_singleton, List.not_mem_nil, or_false] at ha hb hu ⊢
      rcases ha with ha | ha <;> rcases hb with hb | hb <;> rcases hu with hu | hu <;>
        first
        | exact absurd (ha.trans hb.symm) hab
        | exact Or.inl (hu.trans ha.symm)
        | exact Or.inr (hu.trans hb.symm)
  · intro u hu
    simp only [List.mem_cons, List.mem_singleton, List.not_mem_nil, or_false] at hu
    rcases hu with hu | hu
    · rw [hu]; exact ha
    · rw [hu]; exact hb

theorem p2pBetweenRows_nil_of_no_shared (db : DB) (a b : String)
    (hno : ∀ c ∈ db.conversations, c.Type_ = TypeP2P →
      ¬ (a ∈ memberIDsOf db c.ID ∧ b ∈ memberIDsOf db c.ID)) :
    p2pBetweenRows db a b = [] ∧ p2pBetweenRows db b a = [] := by
  constructor <;> apply List.eq_nil_iff_forall_not_mem.mpr <;> intro c hc <;>
    obtain ⟨h1, h2, h3, h4⟩ := (mem_p2pBetweenRows db _ _ c).mp hc
  · exact hno c h1 h2 ⟨h3, h4⟩
  · exact hno c h1 h2 ⟨h4, h3⟩

/-- After a P2P conversation `cn` with a fresh id and the member rows `x`, `y` is added,
a lookup for the pair in either direction can only return `cn`. -/
theorem p2pBetweenRows_withConversation (db : DB) (cn : Conversation) (x y : String)
    (joinedAt : Int) (hfresh : db.fresh cn.ID) (hty : cn.Type_ = TypeP2P)
    (hno : ∀ c ∈ db.conversations, c.Type_ = TypeP2P →
      ¬ (x ∈ memberIDsOf db c.ID ∧ y ∈ memberIDsOf db c.ID)) :
    (cn ∈ p2pBetweenRows (db.withConversation cn [x, y] joinedAt) x y ∧
      ∀ c ∈ p2pBetweenRows (db.withConversation cn [x, y] joinedAt) x y, c = cn) ∧
    (cn ∈ p2pBetweenRows (db.withConversation cn [x, y] joinedAt) y x ∧
      ∀ c ∈ p2pBetweenRows (db.withConversation cn [x, y] joinedAt) y x, c = cn) := by
  have hnew := memberIDsOf_withConversation_new db cn [x, y] joinedAt hfresh
  have hcn : cn ∈ (db.withConversation cn [x, y] joinedAt).conversations := by
    simp [DB.withConversation]
  have hold : ∀ c ∈ p2pBetweenRows (db.withConversation cn [x, y] joinedAt) x y ++
      p2pBetweenRows (db.withConversation cn [x, y] joinedAt) y x, c = cn := by
    intro c hc
    have hc2 : c ∈ (db.withConversation cn [x, y] joinedAt).conversations ∧ c.Type_ = TypeP2P ∧
        x ∈ memberIDsOf (db.withConversation cn [x, y] joinedAt) c.ID ∧
        y ∈ memberIDsOf (db.withConversation cn [x, y] joinedAt) c.ID := by
      rcases List.mem_append.mp hc with h | h
      · exact (mem_p2pBetweenRows _ _ _ c).mp h
      · obtain ⟨h1, h2, h3, h4⟩ := (mem_p2pBetweenRows _ _ _ c).mp h
        exact ⟨h1, h2, h4, h3⟩
    obtain ⟨h1, h2, h3, h4⟩ := hc2
    simp only [DB.withConversation, List.mem_append, List.mem_singleton] at h1
    rcases h1 with h1 | h1
    · exfalso
      rw [memberIDsOf_withConversation_old db cn c [x, y] joinedAt hfresh h1] at h3 h4
      exact hno c h1 h2 ⟨h3, h4⟩
    · exact h1
  refine ⟨⟨?_, fun c hc => hold c (List.mem_append.mpr (Or.inl hc))⟩,
    ⟨?_, fun c hc => hold c (List.mem_append.mpr (Or.inr hc))⟩⟩
  · exact (mem_p2pBetweenRows _ _ _ cn).mpr ⟨hcn, hty, by rw [hnew]; simp, by rw [hnew]; simp⟩
  · exact (mem_p2pBetweenRows _ _ _ cn).mpr ⟨hcn, hty, by rw [hnew]; simp, by rw [hnew]; simp⟩

/-- Adding a P2P conversation `cn` with a fresh id and the member rows of the pair adds
exactly `cn` to the P2P conversations of the pair. -/
theorem p2pConversationsOf_withConversation (db : DB) (cn : Conversation) (a b x y : String)
    (joinedAt : Int) (hfresh : db.fresh cn.ID) (hty : cn.Type_ = TypeP2P)
    (hxy : (x = a ∧ y = b) ∨ (x = b ∧ y = a)) :
    p2pConversationsOf (db.withConversation cn [x, y] joinedAt) a b =
      p2pConversationsOf db a b ++ [cn] := by
  have hnew := memberIDsOf_withConversation_new db cn [x, y] joinedAt hfresh
  unfold p2pConversationsOf
  have hconv : (db.withConversation cn [x, y] joinedAt).conversations = db.conversations ++ [cn] :=
    rfl
  rw [hconv, List.filter_append]
  congr 1
  · apply List.filter_congr
    intro c hc
    simp only [hasMemberSet, memberIDsOf_withConversation_old db cn c [x, y] joinedAt hfresh hc]
  · have hset : hasMemberSet (db.withConversation cn [x, y] joinedAt) cn.ID [a, b] = true := by
      simp only [hasMemberSet, hnew, decide_eq_true_eq]
      rcases hxy with ⟨h1, h2⟩ | ⟨h1, h2⟩ <;> subst h1 <;> subst h2 <;> simp
    simp [List.filter_cons, hty, hset]

theorem p2pLookup_notFound (db : DB) (env : QueryEnv) (x y : String) (hxy : x ≠ y)
    (herr : env.err = none)
    (hno : ∀ c ∈ db.conversations, c.Type_ = TypeP2P →
      ¬ (x ∈ memberIDsOf db c.ID ∧ y ∈ memberIDsOf db c.ID)) :
    p2pLookup db env x y = .error ErrConversationNotFound ∧
    p2pLookup db env y x = .error ErrConversationNotFound := by
  obtain ⟨h1, h2⟩ := p2pBetweenRows_nil_of_no_shared db x y hno
  rw [p2pLookup_distinct db env x y hxy, p2pLookup_distinct db env y x (Ne.symm hxy)]
  exact ⟨GetP2PBetween_notFound db env x y herr h1, GetP2PBetween_notFound db env y x herr h2⟩

theorem p2pLookup_found (db : DB) (env : QueryEnv) (cn : Conversation) (x y : String)
    (joinedAt : Int) (hxy : x ≠ y) (herr : env.err = none) (hfresh : db.fresh cn.ID)
    (hty : cn.Type_ = TypeP2P)
    (hno : ∀ c ∈ db.conversations, c.Type_ = TypeP2P →
      ¬ (x ∈ memberIDsOf db c.ID ∧ y ∈ memberIDsOf db c.ID)) :
    p2pLookup (db.withConversation cn [x, y] joinedAt) env x y = .ok cn ∧
    p2pLookup (db.withConversation cn [x, y] joinedAt) env y x = .ok cn := by
  obtain ⟨⟨h1, h2⟩, ⟨h3, h4⟩⟩ := p2pBetweenRows_withConversation db cn x y joinedAt hfresh hty hno
  rw [p2pLookup_distinct _ env x y hxy, p2pLookup_distinct _ env y x (Ne.symm hxy)]
  exact ⟨GetP2PBetween_found _ env x y cn herr h1 h2, GetP2PBetween_found _ env y x cn herr h3 h4⟩

theorem no_shared_roles (db : DB) (a b x y : String) (hab : a ≠ b)
    (hroles : (x = a ∧ y = b) ∨ (x = b ∧ y = a)) (hinv : P2PInvariant db)
    (hnone : p2pConversationsOf db a b = []) :
    x ≠ y ∧ ∀ c ∈ db.conversations, c.Type_ = TypeP2P →
      ¬ (x ∈ memberIDsOf db c.ID ∧ y ∈ memberIDsOf db c.ID) := by
  have h := no_shared_of_invariant db a b hab hinv hnone
  rcases hroles with ⟨h1, h2⟩ | ⟨h1, h2⟩ <;> subst h1 <;> subst h2
  · exact ⟨hab, h⟩
  · exact ⟨Ne.symm hab, fun c hc hty hmem => h c hc hty ⟨hmem.2, hmem.1⟩⟩

/-- C5. For distinct users `a` and `b` and a store that satisfies the P2P membership
invariant and holds no P2P conversation of membership set `{a, b}`: when one of the
two (`x`) posts a p2p request for the other (`y`) and then `y` posts one for `x`,
every store call succeeding, the first answer is 201 with `created = true` and the
generated id, the second is 200 with `created = false` and the same id, and afterwards
exactly one P2P conversation has the membership set `{a, b}`: the one with that id,
whose membership rows are `x` and `y`. The roles `x`, `y` may be `a`, `b` or
`b`, `a`. -/
theorem p2p_create_then_get_same_conversation (db : DB) (env1 env2 : HandlerEnv)
    (r1 r2 : Request) (a b x y : String)
    (hab : a ≠ b) (ha : a ≠ "") (hb : b ≠ "")
    (hroles : (x = a ∧ y = b) ∨ (x = b ∧ y = a))
    (hinv : P2PInvariant db) (hnone : p2pConversationsOf db a b = [])
    (hr1 : IsP2PRequest env1 r1 x y) (hr2 : IsP2PRequest env2 r2 y x)
    (hlook1 : env1.lookup.err = none) (hcreate1 : env1.create.succeeds)
    (hfresh : db.fresh env1.create.newID) (hlook2 : env2.lookup.err = none) :
    (handleCreateConversation db env1 r1).2 = jsonResponse 201 env1.create.newID true ∧
    (handleCreateConversation (handleCreateConversation db env1 r1).1 env2 r2).2 =
      jsonResponse 200 env1.create.newID false ∧
    ∃ c, p2pConversationsOf
        (handleCreateConversation (handleCreateConversation db env1 r1).1 env2 r2).1 a b = [c] ∧
      c.ID = env1.create.newID ∧
      memberIDsOf (handleCreateConversation (handleCreateConversation db env1 r1).1 env2 r2).1
        c.ID = [x, y] := by
  obtain ⟨hxy, hno⟩ := no_shared_roles db a b x y hab hroles hinv hnone
  have hx : x ≠ "" := by rcases hroles with ⟨h1, _⟩ | ⟨h1, _⟩ <;> rw [h1] <;> assumption
  have hy : y ≠ "" := by rcases hroles with ⟨_, h2⟩ | ⟨_, h2⟩ <;> rw [h2] <;> assumption
  have hcn_fresh : db.fresh (createdRow env1.create
      { ID := "", Type_ := TypeP2P, CreatedBy := x, CreatedAt := env1.now }).ID := hfresh
  have hcn_ty := createdRow_Type env1.create
      { ID := "", Type_ := TypeP2P, CreatedBy := x, CreatedAt := env1.now }
  have hfirst : handleCreateConversation db env1 r1 =
      (db.withConversation
          (createdRow env1.create
            { ID := "", Type_ := TypeP2P, CreatedBy := x, CreatedAt := env1.now })
          [x, y] env1.create.nowJoined,
        jsonResponse 201 env1.create.newID true) := by
    rw [handleCreateConversation_p2p db env1 r1 x y hr1 hy]
    unfold p2pBranch
    rw [(p2pLookup_notFound db env1.lookup x y hxy hlook1 hno).1]
    simp only [ne_eq, not_true_eq_false, if_false]
    rw [p2pCreate_ok db env1 x y hcreate1, p2pMembers_distinct x y hxy]
  have hsecond : handleCreateConversation (handleCreateConversation db env1 r1).1 env2 r2 =
      ((handleCreateConversation db env1 r1).1, jsonResponse 200 env1.create.newID false) := by
    rw [handleCreateConversation_p2p _ env2 r2 y x hr2 hx, hfirst]
    unfold p2pBranch
    simp only []
    rw [(p2pLookup_found db env2.lookup _ x y env1.create.nowJoined hxy hlook2 hcn_fresh hcn_ty
      hno).2]
    simp only [createdRow_ID]
  refine ⟨by rw [hfirst], by rw [hsecond], ?_⟩
  rw [hsecond]
  simp only [hfirst]
  refine ⟨createdRow env1.create
    { ID := "", Type_ := TypeP2P, CreatedBy := x, CreatedAt := env1.now }, ?_, rfl, ?_⟩
  · rw [p2pConversationsOf_withConversation db _ a b x y env1.create.nowJoined hcn_fresh hcn_ty
      hroles, hnone]
    rfl
  · exact memberIDsOf_withConversation_new db _ [x, y] env1.create.nowJoined hcn_fresh

/-- C5, at a concrete input: `alice` posts for `bob` on a store that holds one self
conversation of `alice`, then `bob` posts for `alice`. -/
theorem p2p_create_then_get_same_conversation_witness :
    (handleCreateConversation selfDB (okEnv "c2" 5) (p2pRequest "alice" "bob")).2 =
      jsonResponse 201 "c2" true ∧
    (handleCreateConversation
        (handleCreateConversation selfDB (okEnv "c2" 5) (p2pRequest "alice" "bob")).1
        (okEnv "c3" 6) (p2pRequest "bob" "alice")).2 = jsonResponse 200 "c2" false ∧
    ∃ c, p2pConversationsOf
        (handleCreateConversation
          (handleCreateConversation selfDB (okEnv "c2" 5) (p2pRequest "alice" "bob")).1
          (okEnv "c3" 6) (p2pRequest "bob" "alice")).1 "alice" "bob" = [c] ∧
      c.ID = "c2" ∧
      memberIDsOf
        (handleCreateConversation
          (handleCreateConversation selfDB (okEnv "c2" 5) (p2pRequest "alice" "bob")).1
          (okEnv "c3" 6) (p2pRequest "bob" "alice")).1 c.ID = ["alice", "bob"] :=
  p2p_create_then_get_same_conversation selfDB (okEnv "c2" 5) (okEnv "c3" 6)
    (p2pRequest "alice" "bob") (p2pRequest "bob" "alice") "alice" "bob" "alice" "bob"
    (by decide) (by decide) (by decide) (Or.inl ⟨rfl, rfl⟩)
    (by
      intro c hc _
      simp only [selfDB, List.mem_singleton] at hc
      subst hc
      exact Or.inl (by decide))
    (by decide)
    ⟨rfl, by decide, _, rfl, rfl, rfl⟩ ⟨rfl, by decide, _, rfl, rfl, rfl⟩
    rfl ⟨rfl, rfl, fun _ => rfl, rfl⟩
    ⟨by simp [selfDB, okEnv, okTx], by simp [selfDB, okEnv, okTx]⟩ rfl

/-! ### Two p2p requests for the same pair in flight -/

theorem fresh_withConversation (db : DB) (c : Conversation) (memberIDs : List String)
    (joinedAt : Int) (id : String) (hfresh : db.fresh id) (hne : c.ID ≠ id) :
    (db.withConversation c memberIDs joinedAt).fresh id := by
  constructor
  · intro x hx
    simp only [DB.withConversation, List.mem_append, List.mem_singleton] at hx
    rcases hx with hx | hx
    · exact hfresh.1 x hx
    · rw [hx]; exact hne
  · intro m hm
    simp only [DB.withConversation, List.mem_append, List.mem_map] at hm
    rcases hm with hm | ⟨u, _, hu⟩
    · exact hfresh.2 m hm
    · rw [← hu]; exact hne

/-- Two tasks run step by step agree with the handler: a task stepped twice on its own
is the p2p branch. -/
theorem task_steps_eq_p2pBranch (db : DB) (env : HandlerEnv) (user target : String) :
    (((p2pTask env user target).step db).2.step ((p2pTask env user target).step db).1).1 =
      (p2pBranch db env user target).1 ∧
    (((p2pTask env user target).step db).2.step ((p2pTask env user target).step db).1).2.phase =
      .finished (p2pBranch db env user target).2 := by
  unfold p2pBranch p2pTask Task.step
  cases h : p2pLookup db env.lookup user target with
  | ok c => simp
  | error e =>
    by_cases he : e = ErrConversationNotFound
    · simp [he]
    · simp [he]

/-- C9 as stated fails: on an empty store, when `alice` posts for `bob` and `bob` for
`alice` and both lookups run before either creation, both requests are answered 201
with `created = true`, the ids differ (`c1` and `c2`), and two P2P conversations of
the pair exist afterwards. -/
theorem concurrent_p2p_requests_create_twice :
    raceOutcome [true, false, true, false] emptyDB (okEnv "c1" 5) (okEnv "c2" 6) "alice" "bob" =
      ({ conversations :=
           [{ ID := "c1", Type_ := "p2p", CreatedBy := "alice", CreatedAt := 5 },
            { ID := "c2", Type_ := "p2p", CreatedBy := "bob", CreatedAt := 6 }]
         conversation_members :=
           [{ conversation_id := "c1", user_id := "alice", joined_at := 5 },
            { conversation_id := "c1", user_id := "bob", joined_at := 5 },
            { conversation_id := "c2", user_id := "bob", joined_at := 6 },
            { conversation_id := "c2", user_id := "alice", joined_at := 6 }] },
       .finished (jsonResponse 201 "c1" true), .finished (jsonResponse 201 "c2" true)) ∧
    (p2pConversationsOf
      (raceOutcome [true, false, true, false] emptyDB (okEnv "c1" 5) (okEnv "c2" 6)
        "alice" "bob").1 "alice" "bob").length = 2 := by
  constructor <;> decide

/-- C9, amended. For distinct users `a` and `b`, a store that satisfies the P2P
membership invariant and holds no P2P conversation of the pair, and store calls that
all succeed with fresh generated ids: in each of the six interleavings of the store
calls of the request of `a` for `b` and the request of `b` for `a`, both requests
finish. When one request runs both its calls before the other starts, the first is
answered 201 with its generated id, the second 200 with that same id, and exactly one
P2P conversation of the pair exists afterwards. When both lookups run before either
creation, each request creates a conversation of its own: both are answered 201, with
different ids, and two P2P conversations of the pair exist afterwards. -/
theorem concurrent_p2p_requests (db : DB) (envA envB : HandlerEnv) (a b : String) (s : List Bool)
    (hs : s ∈ interleavings) (hab : a ≠ b) (hinv : P2PInvariant db)
    (hnone : p2pConversationsOf db a b = [])
    (hlookA : envA.lookup.err = none) (hlookB : envB.lookup.err = none)
    (hcreateA : envA.create.succeeds) (hcreateB : envB.create.succeeds)
    (hfreshA : db.fresh envA.create.newID) (hfreshB : db.fresh envB.create.newID)
    (hids : envA.create.newID ≠ envB.create.newID) :
    (s = [true, true, false, false] →
      (raceOutcome s db envA envB a b).2 =
        (.finished (jsonResponse 201 envA.create.newID true),
         .finished (jsonResponse 200 envA.create.newID false)) ∧
      (p2pConversationsOf (raceOutcome s db envA envB a b).1 a b).length = 1) ∧
    (s = [false, false, true, true] →
      (raceOutcome s db envA envB a b).2 =
        (.finished (jsonResponse 200 envB.create.newID false),
         .finished (jsonResponse 201 envB.create.newID true)) ∧
      (p2pConversationsOf (raceOutcome s db envA envB a b).1 a b).length = 1) ∧
    (s ≠ [true, true, false, false] → s ≠ [false, false, true, true] →
      (raceOutcome s db envA envB a b).2 =
        (.finished (jsonResponse 201 envA.create.newID true),
         .finished (jsonResponse 201 envB.create.newID true)) ∧
      (p2pConversationsOf (raceOutcome s db envA envB a b).1 a b).length = 2) := by
  have hno := no_shared_of_invariant db a b hab hinv hnone
  have hno2 : ∀ c ∈ db.conversations, c.Type_ = TypeP2P →
      ¬ (b ∈ memberIDsOf db c.ID ∧ a ∈ memberIDsOf db c.ID) :=
    fun c hc hty hmem => hno c hc hty ⟨hmem.2, hmem.1⟩
  have hba : b ≠ a := Ne.symm hab
  -- the two rows that may be created
  have hfA : db.fresh (createdRow envA.create
      { ID := "", Type_ := TypeP2P, CreatedBy := a, CreatedAt := envA.now }).ID := hfreshA
  have hfB : db.fresh (createdRow envB.create
      { ID := "", Type_ := TypeP2P, CreatedBy := b, CreatedAt := envB.now }).ID := hfreshB
  have htA := createdRow_Type envA.create
    { ID := "", Type_ := TypeP2P, CreatedBy := a, CreatedAt := envA.now }
  have htB := createdRow_Type envB.create
    { ID := "", Type_ := TypeP2P, CreatedBy := b, CreatedAt := envB.now }
  -- lookups on the initial tables find nothing
  have hLA := (p2pLookup_notFound db envA.lookup a b hab hlookA hno).1
  have hLB := (p2pLookup_notFound db envB.lookup b a hba hlookB hno2).1
  -- lookups after the creation of the other request find its row
  have hLBA := (p2pLookup_found db envB.lookup _ a b envA.create.nowJoined hab hlookB hfA htA hno).2
  have hLAB := (p2pLookup_found db envA.lookup _ b a envB.create.nowJoined hba hlookA hfB htB hno2).2
  -- the conversations of the pair after one and after two creations
  have hcA := p2pConversationsOf_withConversation db _ a b a b envA.create.nowJoined hfA htA
    (Or.inl ⟨rfl, rfl⟩)
  have hcB := p2pConversationsOf_withConversation db _ a b b a envB.create.nowJoined hfB htB
    (Or.inr ⟨rfl, rfl⟩)
  have hcAB := p2pConversationsOf_withConversation
    (db.withConversation (createdRow envA.create
      { ID := "", Type_ := TypeP2P, CreatedBy := a, CreatedAt := envA.now }) [a, b]
      envA.create.nowJoined) _ a b b a envB.create.nowJoined
    (fresh_withConversation db _ [a, b] envA.create.nowJoined _ hfB hids) htB (Or.inr ⟨rfl, rfl⟩)
  have hcBA := p2pConversationsOf_withConversation
    (db.withConversation (createdRow envB.create
      { ID := "", Type_ := TypeP2P, CreatedBy := b, CreatedAt := envB.now }) [b, a]
      envB.create.nowJoined) _ a b a b envA.create.nowJoined
    (fresh_withConversation db _ [b, a] envB.create.nowJoined _ hfA (Ne.symm hids)) htA
    (Or.inl ⟨rfl, rfl⟩)
  rw [hcA, hnone] at hcAB
  rw [hcB, hnone] at hcBA
  rw [hnone] at hcA hcB
  simp only [interleavings, List.mem_cons, List.mem_singleton, List.not_mem_nil, or_false] at hs
  rcases hs with rfl | rfl | rfl | rfl | rfl | rfl <;>
    simp [raceOutcome, runSchedule, p2pTask, Task.step, hLA, hLB, hLBA, hLAB,
      p2pCreate_ok _ _ _ _ hcreateA, p2pCreate_ok _ _ _ _ hcreateB, p2pMembers_distinct _ _ hab,
      p2pMembers_distinct _ _ hba, hcA, hcB, hcAB, hcBA, createdRow_ID]

/-- C9 amended, at a concrete input: `alice` and `bob` on a store that holds one self
conversation of `alice`, the request of `alice` running first. -/
theorem concurrent_p2p_requests_witness :
    (raceOutcome [true, true, false, false] selfDB (okEnv "c2" 5) (okEnv "c3" 6) "alice" "bob").2 =
        (.finished (jsonResponse 201 "c2" true), .finished (jsonResponse 200 "c2" false)) ∧
      (p2pConversationsOf
        (raceOutcome [true, true, false, false] selfDB (okEnv "c2" 5) (okEnv "c3" 6)
          "alice" "bob").1 "alice" "bob").length = 1 :=
  (concurrent_p2p_requests selfDB (okEnv "c2" 5) (okEnv "c3" 6) "alice" "bob"
    [true, true, false, false] (by decide) (by decide)
    (by
      intro c hc _
      simp only [selfDB, List.mem_singleton] at hc
      subst hc
      exact Or.inl (by decide))
    (by decide) rfl rfl ⟨rfl, rfl, fun _ => rfl, rfl⟩ ⟨rfl, rfl, fun _ => rfl, rfl⟩
    ⟨by simp [selfDB, okEnv, okTx], by simp [selfDB, okEnv, okTx]⟩
    ⟨by simp [selfDB, okEnv, okTx], by simp [selfDB, okEnv, okTx]⟩
    (by decide)).1 rfl

/-! ### authenticateRequest -/

theorem isSpace_iff (c : Char) : isSpace c = true ↔ WhiteSpace c := by
  simp only [isSpace, WhiteSpace, Bool.or_eq_true, decide_eq_true_eq, List.mem_cons,
    List.mem_singleton, List.not_mem_nil, or_false]
  constructor
  · rintro ((h | h | h | h | h | h | h | h | h | h | h | h | h | h) | h) <;> simp [h]
  · rintro (h | h | h | h | h | h | h | h | h | h | h | h | h | h | h) <;> simp [h]

theorem dropWhile_isSpace_of_trimmed (pre body post : List Char)
    (hpre : ∀ ch ∈ pre, WhiteSpace ch) (hpost : ∀ ch ∈ post, WhiteSpace ch)
    (hhead : ∀ ch, body.head? = some ch → ¬ WhiteSpace ch) :
    (pre ++ body ++ post).dropWhile isSpace = if body = [] then [] else body ++ post := by
  have hpre2 : ∀ ch ∈ pre, isSpace ch = true := fun ch h => (isSpace_iff ch).mpr (hpre ch h)
  have hpost2 : ∀ ch ∈ post, isSpace ch = true := fun ch h => (isSpace_iff ch).mpr (hpost ch h)
  rw [List.append_assoc, List.dropWhile_append_of_pos hpre2]
  cases body with
  | nil =>
    simp only [List.nil_append, if_true]
    have h : (post ++ []).dropWhile isSpace = ([] : List Char).dropWhile isSpace :=
      List.dropWhile_append_of_pos hpost2
    simpa using h
  | cons x xs =>
    have hx : ¬ isSpace x = true := fun h => hhead x rfl ((isSpace_iff x).mp h)
    simp [hx]

/-- A string trimmed as the claim says is what `strings.TrimSpace` returns. -/
theorem TrimSpace_of_trimmed (c h : String) (hc : IsTrimmed c h) : TrimSpace h = c := by
  obtain ⟨pre, post, hdata, hpre, hpost, hhead, hlast⟩ := hc
  have hpost2 : ∀ ch ∈ post.reverse, isSpace ch = true :=
    fun ch h => (isSpace_iff ch).mpr (hpost ch (List.mem_reverse.mp h))
  have hstep := dropWhile_isSpace_of_trimmed pre c.data post hpre hpost hhead
  unfold TrimSpace
  rw [hdata, hstep]
  by_cases hnil : c.data = []
  · simp only [hnil, if_true, List.reverse_nil, List.dropWhile_nil]
    cases c
    simp only at hnil
    rw [hnil]
  · simp only [hnil, if_false, List.reverse_append]
    rw [List.dropWhile_append_of_pos hpost2]
    have hrev : c.data.reverse.dropWhile isSpace = c.data.reverse := by
      cases hr : c.data.reverse with
      | nil => rfl
      | cons y ys =>
        have hy : c.data.getLast? = some y := by
          rw [← List.head?_reverse, hr]; rfl
        have hny : ¬ isSpace y = true := fun h => hlast y hy ((isSpace_iff y).mp h)
        simp [hny]
    rw [hrev, List.reverse_reverse]

/-- Every string has a trimmed form: the one `strings.TrimSpace` returns. -/
theorem trimmed_TrimSpace (h : String) : IsTrimmed (TrimSpace h) h := by
  have hsplit1 := List.takeWhile_append_dropWhile isSpace h.data
  have hsplit2 := List.takeWhile_append_dropWhile isSpace (h.data.dropWhile isSpace).reverse
  refine ⟨h.data.takeWhile isSpace,
    ((h.data.dropWhile isSpace).reverse.takeWhile isSpace).reverse, ?_, ?_, ?_, ?_, ?_⟩
  · simp only [TrimSpace]
    rw [List.append_assoc, ← List.reverse_append, hsplit2, List.reverse_reverse, hsplit1]
  · intro ch hch
    exact (isSpace_iff ch).mp (List.mem_takeWhile_imp hch)
  · intro ch hch
    exact (isSpace_iff ch).mp (List.mem_takeWhile_imp (List.mem_reverse.mp hch))
  · intro ch hch hws
    simp only [TrimSpace] at hch
    -- the first character of the trimmed string is the first of the left-trimmed one
    have hne : (h.data.dropWhile isSpace).reverse.dropWhile isSpace ≠ [] := by
      intro hnil
      rw [hnil] at hch
      simp at hch
    have hhead : (h.data.dropWhile isSpace).head? = some ch := by
      have e : h.data.dropWhile isSpace =
          ((h.data.dropWhile isSpace).reverse.dropWhile isSpace).reverse ++
            ((h.data.dropWhile isSpace).reverse.takeWhile isSpace).reverse := by
        rw [← List.reverse_append, hsplit2, List.reverse_reverse]
      rw [e, List.head?_append, hch]
      rfl
    have hnot := List.head?_dropWhile_not isSpace h.data
    rw [hhead] at hnot
    simp only at hnot
    rw [(isSpace_iff ch).mpr hws] at hnot
    exact Bool.noConfusion hnot
  · intro ch hch hws
    simp only [TrimSpace, List.getLast?_reverse] at hch
    have hnot := List.head?_dropWhile_not isSpace (h.data.dropWhile isSpace).reverse
    rw [hch] at hnot
    simp only at hnot
    rw [(isSpace_iff ch).mpr hws] at hnot
    exact Bool.noConfusion hnot

theorem HasPrefix_Bearer (auth : String) (rest : List Char)
    (h : auth.data = "Bearer ".data ++ rest) :
    HasPrefix auth "Bearer " = true ∧ TrimPrefix auth "Bearer " = String.mk rest := by
  have hp : HasPrefix auth "Bearer " = true := by
    unfold HasPrefix
    rw [h, List.isPrefixOf_iff_prefix]
    exact List.prefix_append _ _
  refine ⟨hp, ?_⟩
  simp only [TrimPrefix, hp, if_true, h]
  rw [List.drop_left]

theorem not_HasPrefix_Bearer (auth : String)
    (h : ¬ ∃ rest, auth.data = "Bearer ".data ++ rest) : HasPrefix auth "Bearer " = false := by
  cases hp : HasPrefix auth "Bearer " with
  | false => rfl
  | true =>
    exfalso
    unfold HasPrefix at hp
    rw [List.isPrefixOf_iff_prefix] at hp
    obtain ⟨t, ht⟩ := hp
    exact h ⟨t, ht.symm⟩

theorem authenticateRequestCalls_token (getByToken : String → Except GoError Session)
    (r : Request) (c : String) (hc : c ≠ "")
    (htoken : (if TrimSpace r.XSessionToken = "" then
        if HasPrefix r.Authorization "Bearer " = true then
          TrimSpace (TrimPrefix r.Authorization "Bearer ")
        else TrimSpace r.XSessionToken
      else TrimSpace r.XSessionToken) = c) :
    authenticateRequestCalls getByToken r =
      ([c], match getByToken c with
            | .error err => .error err
            | .ok sess => .ok sess.UserID) := by
  unfold authenticateRequestCalls
  simp only [htoken, hc, if_false]
  cases getByToken c <;> rfl

theorem authenticateRequestCalls_none (getByToken : String → Except GoError Session)
    (r : Request)
    (htoken : (if TrimSpace r.XSessionToken = "" then
        if HasPrefix r.Authorization "Bearer " = true then
          TrimSpace (TrimPrefix r.Authorization "Bearer ")
        else TrimSpace r.XSessionToken
      else TrimSpace r.XSessionToken) = "") :
    authenticateRequestCalls getByToken r = ([], .error ErrSessionNotFound) := by
  unfold authenticateRequestCalls
  simp only [htoken, if_true]

theorem authenticateRequest_eq_calls (getByToken : String → Except GoError Session)
    (r : Request) :
    authenticateRequest getByToken r = (authenticateRequestCalls getByToken r).2 := by
  unfold authenticateRequest authenticateRequestCalls
  simp only []
  generalize (if TrimSpace r.XSessionToken = "" then
      if HasPrefix r.Authorization "Bearer " = true then
        TrimSpace (TrimPrefix r.Authorization "Bearer ")
      else TrimSpace r.XSessionToken
    else TrimSpace r.XSessionToken) = token
  by_cases h : token = ""
  · simp only [h, if_true]
  · simp only [h, if_false]
    cases getByToken token <;> rfl

/-- C11. The credential `authenticateRequest` looks up in the session store is the
`X-Session-Token` header without its leading and trailing white space when that is
non-empty, whatever `Authorization` holds. Otherwise, when `Authorization` starts
with `Bearer `, it is the rest of that header without its leading and trailing white
space, when that is non-empty. In both cases the store is called once, with that
credential, and the result is the `UserID` of the session found, or the error of the
lookup. When neither header yields a non-empty credential, `authenticateRequest`
fails with `session.ErrSessionNotFound` and makes no call of the store, whatever the
store. The function the handlers call is the second component of the function that
writes the calls down. -/
theorem authenticateRequest_credential (getByToken : String → Except GoError Session)
    (r : Request) :
    authenticateRequest getByToken r = (authenticateRequestCalls getByToken r).2 ∧
    (∃ c, IsTrimmed c r.XSessionToken) ∧
    (∀ rest : List Char, ∃ c, IsTrimmed c (String.mk rest)) ∧
    (∀ c, IsTrimmed c r.XSessionToken → c ≠ "" →
      authenticateRequestCalls getByToken r =
        ([c], match getByToken c with
              | .error err => .error err
              | .ok sess => .ok sess.UserID)) ∧
    (∀ rest c, IsTrimmed "" r.XSessionToken → r.Authorization.data = "Bearer ".data ++ rest →
      IsTrimmed c (String.mk rest) → c ≠ "" →
      authenticateRequestCalls getByToken r =
        ([c], match getByToken c with
              | .error err => .error err
              | .ok sess => .ok sess.UserID)) ∧
    (IsTrimmed "" r.XSessionToken →
      ((¬ ∃ rest, r.Authorization.data = "Bearer ".data ++ rest) ∨
        ∃ rest, r.Authorization.data = "Bearer ".data ++ rest ∧ IsTrimmed "" (String.mk rest)) →
      ∀ store : String → Except GoError Session,
        authenticateRequestCalls store r = ([], .error ErrSessionNotFound) ∧
        authenticateRequest store r = .error ErrSessionNotFound) ∧
    authenticateRequestCalls demoSessions (headerRequest " \talice \n" "Bearer bob") =
      (["alice"], .ok "alice") ∧
    authenticateRequestCalls demoSessions (headerRequest " " "Bearer  bob ") =
      (["bob"], .ok "bob") ∧
    authenticateRequestCalls noSessions (headerRequest "" "Bearer bob") =
      (["bob"], .error ErrSessionNotFound) ∧
    authenticateRequestCalls demoSessions (headerRequest "" "bearer bob") =
      ([], .error ErrSessionNotFound) ∧
    authenticateRequestCalls demoSessions (headerRequest " " "Bearer   ") =
      ([], .error ErrSessionNotFound) := by
  refine ⟨authenticateRequest_eq_calls getByToken r, ⟨_, trimmed_TrimSpace _⟩,
    fun rest => ⟨_, trimmed_TrimSpace _⟩, ?_, ?_, ?_, by decide, by decide, by decide, by decide,
    by decide⟩
  · intro c hc hne
    have ht := TrimSpace_of_trimmed c _ hc
    exact authenticateRequestCalls_token getByToken r c hne (by simp [ht, hne])
  · intro rest c hx hauth hc hne
    have ht := TrimSpace_of_trimmed "" _ hx
    obtain ⟨hp, htp⟩ := HasPrefix_Bearer r.Authorization rest hauth
    have hr := TrimSpace_of_trimmed c _ hc
    exact authenticateRequestCalls_token getByToken r c hne (by simp [ht, hp, htp, hr])
  · intro hx hauth store
    have ht := TrimSpace_of_trimmed "" _ hx
    have hcalls : authenticateRequestCalls store r = ([], .error ErrSessionNotFound) := by
      rcases hauth with hno | ⟨rest, hauth, hrest⟩
      · have hp := not_HasPrefix_Bearer r.Authorization hno
        exact authenticateRequestCalls_none store r (by simp [ht, hp])
      · obtain ⟨hp, htp⟩ := HasPrefix_Bearer r.Authorization rest hauth
        have hr := TrimSpace_of_trimmed "" _ hrest
        exact authenticateRequestCalls_none store r (by simp [ht, hp, htp, hr])
    refine ⟨hcalls, ?_⟩
    rw [authenticateRequest_eq_calls, hcalls]

/-! ### The claims GenerateToken signs -/

/-- C12 as stated fails. With a validity of one hour and non-decreasing clock readings
of which the last falls in the next second, the claims signed have `IssuedAt` 0 and
`NotBefore` 1: they differ, and `NotBefore <= IssuedAt` does not hold. With one
instant for all three readings and a validity of one nanosecond, `ExpiresAt` equals
`IssuedAt`, so `IssuedAt < ExpiresAt` does not hold. With a validity of a second and
a half, `ExpiresAt` is not `IssuedAt` plus the validity. -/
theorem issued_claims_window_fails :
    ((NewAuthenticator "k" "nexus" 3600000000000).issuedClaims
        { nowExp := 999999999, nowIat := 999999999, nowNbf := 1000000000 } "u1" "user").RegisteredClaims.IssuedAt
      = some 0 ∧
    ((NewAuthenticator "k" "nexus" 3600000000000).issuedClaims
        { nowExp := 999999999, nowIat := 999999999, nowNbf := 1000000000 } "u1" "user").RegisteredClaims.NotBefore
      = some 1 ∧
    ((NewAuthenticator "k" "nexus" 1).issuedClaims
        { nowExp := 5000000000, nowIat := 5000000000, nowNbf := 5000000000 } "u1" "user").RegisteredClaims.IssuedAt
      = some 5 ∧
    ((NewAuthenticator "k" "nexus" 1).issuedClaims
        { nowExp := 5000000000, nowIat := 5000000000, nowNbf := 5000000000 } "u1" "user").RegisteredClaims.ExpiresAt
      = some 5 ∧
    ((NewAuthenticator "k" "nexus" 1500000000).issuedClaims
        { nowExp := 5000000000, nowIat := 5000000000, nowNbf := 5000000000 } "u1" "user").RegisteredClaims.ExpiresAt
      = some 6 ∧
    NumericDate.Time 6 ≠ NumericDate.Time 5 + 1500000000 := by
  refine ⟨?_, ?_, ?_, ?_, ?_, ?_⟩ <;> decide

/-- C12, amended. For a positive validity window and non-decreasing readings of the
clock, `GenerateToken` signs claims whose issuer is the configured issuer, whose
`ExpiresAt` is the first reading plus the validity, whose `IssuedAt` is the second
reading and whose `NotBefore` is the third, each truncated to whole seconds; so
`IssuedAt <= NotBefore` and `ExpiresAt` is not before the second of the first reading.
When the three readings fall in the same second and the validity is a whole number of
seconds, `IssuedAt = NotBefore`, `ExpiresAt = IssuedAt + validity` and
`NotBefore <= IssuedAt < ExpiresAt`. -/
theorem issued_claims_window (hmac : HMACFn) (a : Authenticator) (clk : IssueClock)
    (u n : String) (hpos : 0 < a.validity)
    (hmono : clk.nowExp ≤ clk.nowIat ∧ clk.nowIat ≤ clk.nowNbf) :
    (∃ sig, a.GenerateToken hmac clk u n =
      .ok (.segments (some "HS256") (a.issuedClaims clk u n) sig)) ∧
    (a.issuedClaims clk u n).RegisteredClaims.Issuer = a.issuer ∧
    ∃ exp iat nbf,
      (a.issuedClaims clk u n).RegisteredClaims.ExpiresAt = some exp ∧
      (a.issuedClaims clk u n).RegisteredClaims.IssuedAt = some iat ∧
      (a.issuedClaims clk u n).RegisteredClaims.NotBefore = some nbf ∧
      exp = NewNumericDate (clk.nowExp + a.validity) ∧
      iat = NewNumericDate clk.nowIat ∧ nbf = NewNumericDate clk.nowNbf ∧
      iat ≤ nbf ∧ NewNumericDate clk.nowExp ≤ exp ∧
      (NewNumericDate clk.nowExp = NewNumericDate clk.nowNbf →
        a.validity % 1000000000 = 0 →
        iat = nbf ∧ NumericDate.Time exp = NumericDate.Time iat + a.validity ∧
        nbf ≤ iat ∧ iat < exp) := by
  obtain ⟨h12, h23⟩ := hmono
  refine ⟨⟨_, GenerateToken_eq hmac a clk u n⟩, rfl, _, _, _, rfl, rfl, rfl, rfl, rfl, rfl, ?_, ?_,
    ?_⟩
  · unfold NewNumericDate; omega
  · unfold NewNumericDate; omega
  · intro hsame hwhole
    unfold NewNumericDate NumericDate.Time at *
    refine ⟨?_, ?_, ?_, ?_⟩ <;> omega

/-- C12 amended, at a concrete input: a validity of one hour and three readings within
the second 1000. -/
theorem issued_claims_window_witness :
    ∃ exp iat nbf,
      ((NewAuthenticator "k" "nexus-im" 3600000000000).issuedClaims
        { nowExp := 1000000000100, nowIat := 1000000000200, nowNbf := 1000000000300 }
        "u1" "user").RegisteredClaims.ExpiresAt = some exp ∧
      ((NewAuthenticator "k" "nexus-im" 3600000000000).issuedClaims
        { nowExp := 1000000000100, nowIat := 1000000000200, nowNbf := 1000000000300 }
        "u1" "user").RegisteredClaims.IssuedAt = some iat ∧
      ((NewAuthenticator "k" "nexus-im" 3600000000000).issuedClaims
        { nowExp := 1000000000100, nowIat := 1000000000200, nowNbf := 1000000000300 }
        "u1" "user").RegisteredClaims.NotBefore = some nbf ∧
      exp = 4600 ∧ iat = 1000 ∧ nbf = 1000 ∧
      iat = nbf ∧ NumericDate.Time exp = NumericDate.Time iat + 3600000000000 ∧
      nbf ≤ iat ∧ iat < exp := by
  obtain ⟨_, _, exp, iat, nbf, h1, h2, h3, h4, h5, h6, _, _, hsame⟩ :=
    issued_claims_window demoHMAC (NewAuthenticator "k" "nexus-im" 3600000000000)
      { nowExp := 1000000000100, nowIat := 1000000000200, nowNbf := 1000000000300 } "u1" "user"
      (by decide) (by decide)
  obtain ⟨h7, h8, h9, h10⟩ := hsame (by decide) (by decide)
  exact ⟨exp, iat, nbf, h1, h2, h3, by rw [h4]; decide, by rw [h5]; decide, by rw [h6]; decide,
    h7, h8, h9, h10⟩

/-! ### generateSessionToken -/

theorem fromHexChar_hextable :
    ∀ d, d < 16 → fromHexChar (hextable.getD d (Char.ofNat 0)) = some d := by
  decide

theorem decodeChars_encode (bytes : List Nat) (hbytes : ∀ b ∈ bytes, b < 256) :
    decodeChars (bytes.flatMap fun v =>
      [hextable.getD (v / 16) (Char.ofNat 0), hextable.getD (v % 16) (Char.ofNat 0)]) =
      .ok bytes := by
  induction bytes with
  | nil => rfl
  | cons v rest ih =>
    have hv : v < 256 := hbytes v (List.mem_cons_self v rest)
    have hrest := ih (fun b hb => hbytes b (List.mem_cons_of_mem v hb))
    have hhi := fromHexChar_hextable (v / 16) (by omega)
    have hlo := fromHexChar_hextable (v % 16) (by omega)
    simp only [List.flatMap_cons, List.cons_append, List.nil_append, decodeChars, hhi, hlo]
    have hval : v / 16 * 16 + v % 16 = v := by omega
    rw [hval]
    have hrest2 : decodeChars ([].append (List.map (fun v =>
        [hextable.getD (v / 16) (Char.ofNat 0), hextable.getD (v % 16) (Char.ofNat 0)])
        rest).flatten) = .ok rest := hrest
    rw [hrest2]

theorem encode_length (bytes : List Nat) :
    (bytes.flatMap fun v =>
      [hextable.getD (v / 16) (Char.ofNat 0), hextable.getD (v % 16) (Char.ofNat 0)]).length =
      2 * bytes.length := by
  induction bytes with
  | nil => rfl
  | cons v rest ih =>
    simp only [List.flatMap_cons, List.length_append, List.length_cons, List.length_nil, ih]
    omega

theorem hextable_getD_lower :
    ∀ d, d < 16 →
      (48 ≤ (hextable.getD d (Char.ofNat 0)).toNat ∧ (hextable.getD d (Char.ofNat 0)).toNat ≤ 57) ∨
      (97 ≤ (hextable.getD d (Char.ofNat 0)).toNat ∧
        (hextable.getD d (Char.ofNat 0)).toNat ≤ 102) := by
  decide

theorem encode_chars_lower (bytes : List Nat) (hbytes : ∀ b ∈ bytes, b < 256) :
    ∀ c ∈ (EncodeToString bytes).data,
      (48 ≤ c.toNat ∧ c.toNat ≤ 57) ∨ (97 ≤ c.toNat ∧ c.toNat ≤ 102) := by
  intro c hc
  simp only [EncodeToString, List.mem_flatMap, List.mem_cons, List.mem_singleton,
    List.not_mem_nil, or_false] at hc
  obtain ⟨v, hv, hc⟩ := hc
  have hlt := hbytes v hv
  rcases hc with hc | hc <;> rw [hc]
  · exact hextable_getD_lower (v / 16) (by omega)
  · exact hextable_getD_lower (v % 16) (by omega)

theorem stream_bytes_lt (stream : Nat → Nat) (n : Nat) :
    ∀ b ∈ (List.range n).map (fun i => stream i % 256), b < 256 := by
  intro b hb
  simp only [List.mem_map, List.mem_range] at hb
  obtain ⟨i, _, hi⟩ := hb
  rw [← hi]
  exact Nat.mod_lt _ (by norm_num)

theorem generateSessionToken_ok (stream : Nat → Nat) :
    generateSessionToken (.ok stream) =
        .ok (EncodeToString ((List.range 32).map fun i => stream i % 256)) ∧
      DecodeString (EncodeToString ((List.range 32).map fun i => stream i % 256)) =
        .ok ((List.range 32).map fun i => stream i % 256) :=
  ⟨rfl, decodeChars_encode _ (stream_bytes_lt stream 32)⟩

theorem generateSessionToken_same_bytes (stream1 stream2 : Nat → Nat)
    (h : generateSessionToken (.ok stream1) = generateSessionToken (.ok stream2)) :
    ∀ i, i < 32 → stream1 i % 256 = stream2 i % 256 := by
  obtain ⟨hg1, hd1⟩ := generateSessionToken_ok stream1
  obtain ⟨hg2, hd2⟩ := generateSessionToken_ok stream2
  rw [hg1, hg2] at h
  have e : EncodeToString ((List.range 32).map fun i => stream1 i % 256) =
      EncodeToString ((List.range 32).map fun i => stream2 i % 256) := by injection h
  rw [e, hd2] at hd1
  have hb : (List.range 32).map (fun i => stream2 i % 256) =
      (List.range 32).map (fun i => stream1 i % 256) := by injection hd1
  intro i hi
  exact ((List.map_inj_left.mp hb) i (List.mem_range.mpr hi)).symm

/-- C13. When the random source succeeds and delivers the bytes `stream 0`, ...,
`stream 31`, `generateSessionToken` returns a token of exactly 64 characters, each a
digit or a letter from `a` to `f`, and `hex.DecodeString` of the token gives those 32
bytes back. Sources that differ in one of their 32 bytes give different tokens. When
the source fails, `generateSessionToken` returns its error and no token, and
`handleLogin` makes no call of `sessionStore.Create` and does not answer 200, whatever
the request and the stores. The bytes 0 to 31 give `000102...1f`, the bytes 255 down
to 224 give `fffefd...e0`. -/
theorem generateSessionToken_spec (source : RandSource) :
    (∀ stream, source = .ok stream →
      ∃ tok, generateSessionToken source = .ok tok ∧ tok.length = 64 ∧
        (∀ c ∈ tok.data, (48 ≤ c.toNat ∧ c.toNat ≤ 57) ∨ (97 ≤ c.toNat ∧ c.toNat ≤ 102)) ∧
        DecodeString tok = .ok ((List.range 32).map fun i => stream i % 256) ∧
        ((List.range 32).map fun i => stream i % 256).length = 32 ∧
        randRead source 32 = .ok ((List.range 32).map fun i => stream i % 256)) ∧
    (∀ stream1 stream2 : Nat → Nat, ∀ i, i < 32 → stream1 i % 256 ≠ stream2 i % 256 →
      generateSessionToken (.ok stream1) ≠ generateSessionToken (.ok stream2)) ∧
    (∀ err, source = .error err →
      generateSessionToken source = .error err ∧
      ∀ (env : LoginEnv) (r : LoginRequest), env.random = source →
        (handleLogin env r).creates = [] ∧ (handleLogin env r).response.status ≠ 200) ∧
    generateSessionToken (.ok fun i => i) =
      .ok "000102030405060708090a0b0c0d0e0f101112131415161718191a1b1c1d1e1f" ∧
    generateSessionToken (.ok fun i => 255 - i) =
      .ok "fffefdfcfbfaf9f8f7f6f5f4f3f2f1f0efeeedecebeae9e8e7e6e5e4e3e2e1e0" ∧
    DecodeString "fffefdfcfbfaf9f8f7f6f5f4f3f2f1f0efeeedecebeae9e8e7e6e5e4e3e2e1e0" =
      .ok [255, 254, 253, 252, 251, 250, 249, 248, 247, 246, 245, 244, 243, 242, 241, 240,
           239, 238, 237, 236, 235, 234, 233, 232, 231, 230, 229, 228, 227, 226, 225, 224] := by
  refine ⟨?_, ?_, ?_, by decide, by decide, by decide⟩
  · intro stream hs
    subst hs
    obtain ⟨hgen, hdec⟩ := generateSessionToken_ok stream
    refine ⟨_, hgen, ?_, encode_chars_lower _ (stream_bytes_lt stream 32), hdec, by simp, rfl⟩
    simp only [EncodeToString, String.length, encode_length, List.length_map, List.length_range]
  · intro stream1 stream2 i hi hne heq
    exact hne (generateSessionToken_same_bytes stream1 stream2 heq i hi)
  · intro err hs
    subst hs
    refine ⟨rfl, ?_⟩
    intro env r henv
    have hgen : generateSessionToken env.random = .error err := by rw [henv]; rfl
    unfold handleLogin
    simp only [hgen]
    constructor <;> (repeat' split) <;> simp [loginError]

/-- The token of the random bytes 0, 1, ..., 31, and a login of `alice` under a failing
random source: the answer is 500 and no session is created; under a working source it
is 200 with the token, and one session is created. -/
theorem generateSessionToken_examples :
    generateSessionToken (.ok fun i => i) =
      .ok "000102030405060708090a0b0c0d0e0f101112131415161718191a1b1c1d1e1f" ∧
    handleLogin { demoLoginEnv with random := .error (.sentinel (.other "rand: unavailable")) }
        { Method := "POST", Body := some { Username := "alice", Password := "pw123" } } =
      loginError "Failed to create session" 500 ∧
    handleLogin demoLoginEnv
        { Method := "POST", Body := some { Username := "alice", Password := "pw123" } } =
      { response := { status := 200, contentType := "application/json",
                      body := .token "000102030405060708090a0b0c0d0e0f101112131415161718191a1b1c1d1e1f"
                        86400 },
        creates := [{ UserID := "u-alice",
                      Token := "000102030405060708090a0b0c0d0e0f101112131415161718191a1b1c1d1e1f",
                      CreatedAt := 1000, ExpiresAt := 86400000001000 }] } ∧
    handleLogin demoLoginEnv
        { Method := "POST", Body := some { Username := "alice", Password := "wrongpw" } } =
      loginError "Invalid credentials" 401 := by
  refine ⟨?_, ?_, ?_, ?_⟩ <;> decide

end Nexus
